import Mathlib

/-!
Shallow embedding of the core simulation of the `shifting-pixel` repository
(`src/components/game/GameScreen.tsx`): the per-frame game loop (platform
runtime, player kinematics and collision resolution, death/completion
detection), the camera controller, and the level-data parser.

Conventions of the embedding:
* JavaScript numbers are modelled as exact rationals (`ℚ`); the claims about
  value classes (NaN / ±Infinity) use a dedicated `JSNum` type that tracks
  finiteness, mirroring `Number.isFinite`.
* Optional TypeScript fields (`moveDirectionX?`, `isBroken?`, ...) are
  modelled as `Option` and the source's `!== undefined` guards as matches.
* JavaScript reference identity of platform objects (`player.standingOnPlatform
  === pObj`) is modelled by the platform's index in the level's platform list,
  which is stable for the lifetime of a level instance.
* The per-frame `gameLoop` callback is modelled by `tick`; ticks model the
  frames on which the loop body actually runs (`gameStarted`, a parsed level
  with at least the early-return guards passed, not `isLoading`, not
  `isPaused`, and the `onRequestNewLevel` callback present), since on other
  frames the source returns before mutating any simulation state.
-/

/-- `PLAYER_WIDTH` (GameScreen.tsx line 47). -/
def PLAYER_WIDTH : ℚ := 8

/-- `PLAYER_HEIGHT` (line 48). -/
def PLAYER_HEIGHT : ℚ := 16

/-- `PLAYER_CROUCH_HEIGHT` (line 49). -/
def PLAYER_CROUCH_HEIGHT : ℚ := 8

/-- `PLAYER_SPEED` (line 50). -/
def PLAYER_SPEED : ℚ := 2

/-- `JUMP_FORCE` (line 51). -/
def JUMP_FORCE : ℚ := 7

/-- `GRAVITY` (line 52). -/
def GRAVITY : ℚ := 3/10

/-- `DEFAULT_PLATFORM_HEIGHT` (line 53). -/
def DEFAULT_PLATFORM_HEIGHT : ℚ := 10

/-- `DEFAULT_PLATFORM_MOVE_SPEED` (line 63). -/
def DEFAULT_PLATFORM_MOVE_SPEED : ℚ := 1/2

/-- `DEFAULT_PLATFORM_MOVE_RANGE` (line 64). -/
def DEFAULT_PLATFORM_MOVE_RANGE : ℚ := 50

/-- `TIMED_PLATFORM_VISIBLE_DURATION = 3 * 60` (line 65). -/
def TIMED_PLATFORM_VISIBLE_DURATION : ℚ := 180

/-- `TIMED_PLATFORM_HIDDEN_DURATION = 2 * 60` (line 66). -/
def TIMED_PLATFORM_HIDDEN_DURATION : ℚ := 120

/-- `BREAKABLE_PLATFORM_BREAK_DELAY = 0.5 * 60` (line 67). -/
def BREAKABLE_PLATFORM_BREAK_DELAY : ℚ := 30

/-- `BREAKABLE_PLATFORM_RESPAWN_DURATION = 5 * 60` (line 68). -/
def BREAKABLE_PLATFORM_RESPAWN_DURATION : ℚ := 300

/-- `CAMERA_LERP_FACTOR` (line 70). -/
def CAMERA_LERP_FACTOR : ℚ := 1/10

/-- `CROUCH_CAMERA_VIEW_ADJUST_WORLD` (line 71). -/
def CROUCH_CAMERA_VIEW_ADJUST_WORLD : ℚ := 20

/-- `LOGICAL_GAME_WIDTH` (line 73). -/
def LOGICAL_GAME_WIDTH : ℚ := 400

/-- `LOGICAL_GAME_HEIGHT` (line 74). -/
def LOGICAL_GAME_HEIGHT : ℚ := 300

/-- Axis-aligned rectangle, as used by the `tempRect1`/`tempRect2` scratch
rectangles of the source (`{x, y, width, height}`). -/
structure Rect where
  x : ℚ
  y : ℚ
  w : ℚ
  h : ℚ
  deriving DecidableEq, Repr

/-- `checkCollision` (lines 77-83): strict-inequality AABB overlap test. -/
def checkCollision (rect1 rect2 : Rect) : Bool :=
  decide (rect1.x < rect2.x + rect2.w) && decide (rect1.x + rect1.w > rect2.x) &&
  decide (rect1.y < rect2.y + rect2.h) && decide (rect1.y + rect1.h > rect2.y)

/-- JavaScript truthiness of a possibly-undefined boolean field:
`undefined` is falsy, a present boolean is itself. -/
def obGet (o : Option Bool) : Bool := o.getD false

/-- A platform descriptor as parsed from the level payload
(`Platform` in `src/types`, used as `PlatformData`): numeric `x`, `y`,
`width` and an optional `type` string. -/
structure PlatformData where
  x : ℚ
  y : ℚ
  width : ℚ
  type : Option String
  deriving DecidableEq, Repr, Inhabited

/-- `PlatformObject` (lines 85-106): the per-level runtime state of one
platform. `x`/`y` are the sprite position (`sprite.x`, `sprite.y`),
`spriteVisible` is `sprite.visible`; the optional variant-specific fields
mirror the optional TypeScript fields. -/
structure Platform where
  x : ℚ
  y : ℚ
  initialX : ℚ
  initialY : ℚ
  width : ℚ
  height : ℚ
  type : String
  moveDirectionX : Option ℚ
  moveRangeX : Option ℚ
  currentSpeedX : ℚ
  moveDirectionY : Option ℚ
  moveRangeY : Option ℚ
  currentSpeedY : ℚ
  isVisible : Option Bool
  timer : Option ℚ
  visibleDuration : Option ℚ
  hiddenDuration : Option ℚ
  isBroken : Option Bool
  isBreaking : Option Bool
  breakingTimer : Option ℚ
  respawnTimer : Option ℚ
  spriteVisible : Bool
  deriving DecidableEq, Repr, Inhabited

/-- The collision rectangle of a platform
(`tempRect.x = pObj.sprite.x; ... width = pObj.width; height = pObj.height`). -/
def platformRect (p : Platform) : Rect := ⟨p.x, p.y, p.width, p.height⟩

/-- Solidity of a platform for collision purposes. This is the predicate of
the `collidablePlatforms` filter (lines 571-575) and, in de-Morgan form, the
`otherSolid` test of the oscillator passes (lines 462 and 484): a platform is
solid unless it is a hidden timed platform, a broken breakable, or a breakable
whose `breakingTimer` is defined and has run out while `isBreaking`. -/
def platformSolid (p : Platform) : Bool :=
  !((p.type == "breakable" &&
      (obGet p.isBroken ||
        (obGet p.isBreaking &&
          (match p.breakingTimer with
           | some t => decide (t ≤ 0)
           | none => false)))) ||
    (p.type == "timed" && !(obGet p.isVisible)))

/-- The `pSolid` test of the uncrouch check (line 533): unlike
`platformSolid`, a breakable platform is treated as non-blocking as soon as
`isBreaking` is set, even while its break-delay countdown keeps it solid for
ordinary collision. -/
def uncrouchBlockSolid (p : Platform) : Bool :=
  !((p.type == "timed" && !(obGet p.isVisible)) ||
    (p.type == "breakable" && (obGet p.isBroken || obGet p.isBreaking)))

/-- The pressed-key set `keysPressedRef.current`, containing key codes such
as `"KeyA"` or `"ArrowLeft"`. -/
def Keys := List String

/-- Set membership `keys.has(code)`. -/
def Keys.has (keys : Keys) (code : String) : Bool :=
  match keys with
  | k :: rest => k == code || Keys.has rest code
  | [] => false

/-- Platform-object construction from a descriptor (lines 354-375): position
starts at the descriptor's coordinates, height is the fixed default, a falsy
`type` defaults to `"standard"`, and the variant-specific fields are
initialised for the matching type only. -/
def mkPlatformObject (pd : PlatformData) : Platform :=
  let ty := match pd.type with
    | some t => if t = "" then "standard" else t
    | none => "standard"
  let base : Platform :=
    { x := pd.x, y := pd.y, initialX := pd.x, initialY := pd.y,
      width := pd.width, height := DEFAULT_PLATFORM_HEIGHT,
      type := ty, currentSpeedX := 0, currentSpeedY := 0,
      moveDirectionX := none, moveRangeX := none,
      moveDirectionY := none, moveRangeY := none,
      isVisible := none, timer := none,
      visibleDuration := none, hiddenDuration := none,
      isBroken := none, isBreaking := none,
      breakingTimer := none, respawnTimer := none,
      spriteVisible := true }
  let base := if pd.type = some "mobile" then
      { base with moveDirectionX := some 1,
                  moveRangeX := some (if pd.width > 0
                    then pd.width * (4/5) + 20
                    else DEFAULT_PLATFORM_MOVE_RANGE) }
    else base
  let base := if pd.type = some "vertical_mobile" then
      { base with moveDirectionY := some 1,
                  moveRangeY := some DEFAULT_PLATFORM_MOVE_RANGE }
    else base
  let base := if pd.type = some "timed" then
      { base with isVisible := some true,
                  visibleDuration := some TIMED_PLATFORM_VISIBLE_DURATION,
                  hiddenDuration := some TIMED_PLATFORM_HIDDEN_DURATION,
                  timer := some TIMED_PLATFORM_VISIBLE_DURATION,
                  spriteVisible := true }
    else base
  if pd.type = some "breakable" then
    { base with isBroken := some false, isBreaking := some false,
                breakingTimer := some 0, respawnTimer := some 0,
                spriteVisible := true }
  else base

/-- Precomputation of the "last platform" (lines 379-390): the platform
whose `initialX + width` (right edge) is strictly greatest; a strict `>`
comparison keeps the first-seen platform on ties. The result is the index of
that platform (reference identity in the source). -/
def lastPlatformIndex (ps : List Platform) : Option ℕ :=
  (ps.enum.foldl
    (fun acc jp =>
      match acc with
      | none => some (jp.1, jp.2.initialX + jp.2.width)
      | some im =>
        if jp.2.initialX + jp.2.width > im.2
        then some (jp.1, jp.2.initialX + jp.2.width)
        else some im)
    none).map Prod.fst

/-- The player runtime state (`playerRef.current`, lines 143-155), with
`standingOnPlatform` as an index into the level's platform list. -/
structure Player where
  x : ℚ
  y : ℚ
  vx : ℚ
  vy : ℚ
  isJumping : Bool
  isCrouching : Bool
  onGround : Bool
  width : ℚ
  height : ℚ
  standingOnPlatform : Option ℕ
  deriving DecidableEq, Repr, Inhabited

/-- The player's collision rectangle at its current position. -/
def playerRect (pl : Player) : Rect := ⟨pl.x, pl.y, pl.width, pl.height⟩

/-- All simulation state owned by one level instance: the parsed descriptors
(`parsedData.platforms`, still consulted for the death boundary), the runtime
platform objects, the player, the precomputed last-platform index and the
one-shot completion latch `newLevelRequestedRef.current`. -/
structure GameState where
  parsed : List PlatformData
  platforms : List Platform
  player : Player
  lastPlatform : Option ℕ
  newLevelRequested : Bool
  deriving DecidableEq, Repr, Inhabited

/-- Horizontal-oscillator move (lines 453-473), for the platform at index
`i` of the (partially updated) platform list `ps`. The candidate rectangle is
tested against every other platform that is solid at this moment; on overlap
the direction reverses and the position is kept, otherwise the candidate is
clamped to `[initialX - range, initialX + range]`, reversing direction at a
clamp bound. `currentSpeedX` records the realized displacement. -/
def mobileStepX (ps : List Platform) (i : ℕ) (p : Platform) : Platform :=
  if p.type = "mobile" then
    match p.moveDirectionX, p.moveRangeX with
    | some dirX, some rangeX =>
      let prevSpriteX := p.x
      let cand := p.x + DEFAULT_PLATFORM_MOVE_SPEED * dirX
      let candRect : Rect := ⟨cand, p.y, p.width, p.height⟩
      let hit := ps.enum.any fun jp =>
        decide (jp.1 ≠ i) && platformSolid jp.2 &&
        checkCollision candRect (platformRect jp.2)
      if hit then
        { p with moveDirectionX := some (dirX * (-1)),
                 currentSpeedX := p.x - prevSpriteX }
      else
        let nextX :=
          if dirX = 1 ∧ cand > p.initialX + rangeX then p.initialX + rangeX
          else if dirX = -1 ∧ cand < p.initialX - rangeX then p.initialX - rangeX
          else cand
        let dir' :=
          if dirX = 1 ∧ cand > p.initialX + rangeX then (-1 : ℚ)
          else if dirX = -1 ∧ cand < p.initialX - rangeX then (1 : ℚ)
          else dirX
        { p with x := nextX, moveDirectionX := some dir',
                 currentSpeedX := nextX - prevSpriteX }
    | _, _ => p
  else p

/-- Vertical-oscillator move (lines 475-495), the `y`-axis analogue of
`mobileStepX`. -/
def mobileStepY (ps : List Platform) (i : ℕ) (p : Platform) : Platform :=
  if p.type = "vertical_mobile" then
    match p.moveDirectionY, p.moveRangeY with
    | some dirY, some rangeY =>
      let prevSpriteY := p.y
      let cand := p.y + DEFAULT_PLATFORM_MOVE_SPEED * dirY
      let candRect : Rect := ⟨p.x, cand, p.width, p.height⟩
      let hit := ps.enum.any fun jp =>
        decide (jp.1 ≠ i) && platformSolid jp.2 &&
        checkCollision candRect (platformRect jp.2)
      if hit then
        { p with moveDirectionY := some (dirY * (-1)),
                 currentSpeedY := p.y - prevSpriteY }
      else
        let nextY :=
          if dirY = 1 ∧ cand > p.initialY + rangeY then p.initialY + rangeY
          else if dirY = -1 ∧ cand < p.initialY - rangeY then p.initialY - rangeY
          else cand
        let dir' :=
          if dirY = 1 ∧ cand > p.initialY + rangeY then (-1 : ℚ)
          else if dirY = -1 ∧ cand < p.initialY - rangeY then (1 : ℚ)
          else dirY
        { p with y := nextY, moveDirectionY := some dir',
                 currentSpeedY := nextY - prevSpriteY }
    | _, _ => p
  else p

/-- Timed-visibility update (lines 497-500): decrement the timer; at zero
toggle visibility and reload the timer from the duration matching the new
state. -/
def timedStep (p : Platform) : Platform :=
  if p.type = "timed" then
    match p.timer, p.isVisible, p.visibleDuration, p.hiddenDuration with
    | some t, some vis, some vd, some hd =>
      let t' := t - 1
      if t' ≤ 0 then
        let vis' := !vis
        { p with isVisible := some vis', spriteVisible := vis',
                 timer := some (if vis' then vd else hd) }
      else { p with timer := some t' }
    | _, _, _, _ => p
  else p

/-- Breakable life-cycle update (lines 502-513). Returns the updated
platform and whether it flipped to broken on this tick (in the source this
flip clears the standing player in the same statement). -/
def breakableStep (p : Platform) : Platform × Bool :=
  if p.type = "breakable" then
    if obGet p.isBreaking && (match p.breakingTimer with
                              | some t => decide (t > 0)
                              | none => false) then
      match p.breakingTimer with
      | some t =>
        let t' := t - 1
        if t' ≤ 0 then
          ({ p with breakingTimer := some t', isBroken := some true,
                    spriteVisible := false,
                    respawnTimer := some BREAKABLE_PLATFORM_RESPAWN_DURATION,
                    isBreaking := some false }, true)
        else ({ p with breakingTimer := some t' }, false)
      | none => (p, false)
    else if obGet p.isBroken && p.respawnTimer.isSome then
      match p.respawnTimer with
      | some rt =>
        let rt' := rt - 1
        if rt' ≤ 0 then
          ({ p with respawnTimer := some rt', isBroken := some false,
                    spriteVisible := true, isBreaking := some false,
                    breakingTimer := some 0 }, false)
        else ({ p with respawnTimer := some rt' }, false)
      | none => (p, false)
    else (p, false)
  else (p, false)

/-- The full per-platform update of a breakable platform within one platform
phase (speed reset followed by the breakable branch; the oscillator and timed
branches do not apply to a `"breakable"` platform). -/
def breakableTick (p : Platform) : Platform :=
  (breakableStep { p with currentSpeedX := 0, currentSpeedY := 0 }).1

/-- State threaded through the platform phase: the platform list and the
player (mutated when a breakable platform flips under the player). -/
structure PhaseSt where
  platforms : List Platform
  player : Player
  deriving DecidableEq, Repr, Inhabited

/-- One iteration of the platform `forEach` (lines 450-514) for the platform
at index `i`: reset the carried speeds, run the oscillator, timed and
breakable branches, and clear the player's `standingOnPlatform`/`onGround`
when this platform flipped to broken while the player stood on it
(line 507). -/
def stepPlatformAt (st : PhaseSt) (i : ℕ) : PhaseSt :=
  match st.platforms.get? i with
  | none => st
  | some p0 =>
    let p1 := { p0 with currentSpeedX := 0, currentSpeedY := 0 }
    let p2 := mobileStepX st.platforms i p1
    let p3 := mobileStepY st.platforms i p2
    let p4 := timedStep p3
    let (p5, flipped) := breakableStep p4
    let player' :=
      if flipped ∧ st.player.standingOnPlatform = some i then
        { st.player with standingOnPlatform := none, onGround := false }
      else st.player
    { platforms := st.platforms.set i p5, player := player' }

/-- The whole platform phase: the `forEach` over the platform array in
order. -/
def platformPhase (st : PhaseSt) : PhaseSt :=
  (List.range st.platforms.length).foldl stepPlatformAt st

/-- Platform carry (lines 516-519): a grounded player standing on a platform
is moved by the platform's realized displacement for this tick. A zero
displacement is falsy in the source, so nothing is added then. -/
def platformCarry (ps : List Platform) (pl : Player) : Player :=
  if pl.onGround ∧ pl.standingOnPlatform.isSome then
    match pl.standingOnPlatform.bind ps.get? with
    | some p =>
      let pl1 := if p.currentSpeedX ≠ 0 then { pl with x := pl.x + p.currentSpeedX } else pl
      if p.currentSpeedY ≠ 0 then { pl1 with y := pl1.y + p.currentSpeedY } else pl1
    | none => pl
  else pl

/-- Crouch transition (lines 521-539): the crouch flag is the crouch input
gated by `onGround`; entering crouch shifts the player down by the height
difference; leaving crouch is attempted by testing the would-be full-height
rectangle against every platform passing `uncrouchBlockSolid`, and refused
(staying crouched) on any overlap. -/
def crouchStep (ps : List Platform) (keys : Keys) (pl : Player) : Player :=
  let wasCrouching := pl.isCrouching
  let isC := (keys.has "KeyS" || keys.has "ArrowDown") && pl.onGround
  let pl := { pl with isCrouching := isC }
  let targetHeight := if pl.isCrouching then PLAYER_CROUCH_HEIGHT else PLAYER_HEIGHT
  let heightDiff := PLAYER_HEIGHT - PLAYER_CROUCH_HEIGHT
  if pl.height ≠ targetHeight then
    if pl.isCrouching ∧ ¬wasCrouching then
      { pl with y := pl.y + heightDiff, height := PLAYER_CROUCH_HEIGHT }
    else if ¬pl.isCrouching ∧ wasCrouching then
      let fullRect : Rect := ⟨pl.x, pl.y - heightDiff, pl.width, PLAYER_HEIGHT⟩
      let canUncrouch := ¬ ps.any fun p =>
        uncrouchBlockSolid p && checkCollision fullRect (platformRect p)
      if canUncrouch then { pl with y := pl.y - heightDiff, height := PLAYER_HEIGHT }
      else { pl with isCrouching := true }
    else pl
  else pl

/-- Horizontal input (lines 541-545): reset `vx`, then, while not crouching,
the left input sets `-PLAYER_SPEED` and the right input sets `PLAYER_SPEED`;
the right assignment comes second and wins when both are held. -/
def horizontalInput (keys : Keys) (pl : Player) : Player :=
  let pl := { pl with vx := 0 }
  if ¬pl.isCrouching then
    let pl := if keys.has "KeyA" || keys.has "ArrowLeft"
      then { pl with vx := -PLAYER_SPEED } else pl
    if keys.has "KeyD" || keys.has "ArrowRight"
      then { pl with vx := PLAYER_SPEED } else pl
  else pl

/-- Jump (lines 547-554): an upward impulse while grounded and not
crouching, clearing the ground state immediately. -/
def jumpStep (keys : Keys) (pl : Player) : Player :=
  if (keys.has "KeyW" || keys.has "ArrowUp" || keys.has "Space") &&
     pl.onGround && !pl.isCrouching then
    { pl with vy := -JUMP_FORCE, isJumping := true, onGround := false,
              standingOnPlatform := none }
  else pl

/-- Gravity (lines 556-557): applied only while airborne; on the ground any
residual downward velocity is zeroed. -/
def gravityStep (pl : Player) : Player :=
  if ¬pl.onGround then { pl with vy := pl.vy + GRAVITY }
  else if pl.vy > 0 then { pl with vy := 0 } else pl

/-- Position integration (lines 559-560), returning the new player together
with the pre-update `x` and `y` used as the previous position by the
collision passes. -/
def integrateStep (pl : Player) : Player × ℚ × ℚ :=
  ({ pl with x := pl.x + pl.vx, y := pl.y + pl.vy }, pl.x, pl.y)

/-- Ground reset and stale-standing clearing (lines 562-569): `onGround` is
reset before the collision passes, and a `standingOnPlatform` that is a
hidden timed platform or a broken breakable is dropped. -/
def clearGroundStep (ps : List Platform) (pl : Player) : Player :=
  let pl := { pl with onGround := false }
  match pl.standingOnPlatform.bind ps.get? with
  | some p =>
    if (p.type = "timed" ∧ ¬ obGet p.isVisible) ∨
       (p.type = "breakable" ∧ obGet p.isBroken) then
      { pl with standingOnPlatform := none }
    else pl
  | none => pl

/-- The `collidablePlatforms` snapshot (lines 571-575), keeping the original
array index of each platform (reference identity in the source). -/
def collidable (ps : List Platform) : List (ℕ × Platform) :=
  ps.enum.filter fun jp => platformSolid jp.2

/-- Horizontal collision pass (lines 577-586): against each collidable
platform, using the previous vertical position; on overlap the player is
snapped to the platform's near edge according to the sign of `vx`, and `vx`
is zeroed. -/
def horizontalPass (coll : List (ℕ × Platform)) (prevPlayerY : ℚ) (pl : Player) : Player :=
  coll.foldl
    (fun pl jp =>
      let r1 := platformRect jp.2
      let r2 : Rect := ⟨pl.x, prevPlayerY, pl.width, pl.height⟩
      if checkCollision r2 r1 then
        let pl := if pl.vx > 0 then { pl with x := r1.x - pl.width }
                  else if pl.vx < 0 then { pl with x := r1.x + r1.w } else pl
        { pl with vx := 0 }
      else pl)
    pl

/-- Start of a breakable platform's break-delay countdown, as performed when
a player lands on an intact breakable platform (lines 600-602). -/
def breakStart (p : Platform) : Platform :=
  { p with isBreaking := some true,
           breakingTimer := some BREAKABLE_PLATFORM_BREAK_DELAY }

/-- One iteration of the vertical collision pass (lines 588-610) for the
collidable platform `pObj` with original index `i`: on downward motion a
landing is registered only when the previous bottom edge was at or above the
platform's top edge plus the 1-unit tolerance, recording `standingOnPlatform`
and starting the break-delay countdown of an intact breakable platform
(lines 600-602); on upward motion, a head bump against the underside when
the previous top edge was at or below the bottom edge minus the tolerance. -/
def verticalCollideOne (ps : List Platform) (pl : Player) (prevPlayerY : ℚ)
    (i : ℕ) (pObj : Platform) : List Platform × Player :=
  let r1 := platformRect pObj
  let r2 : Rect := ⟨pl.x, pl.y, pl.width, pl.height⟩
  if checkCollision r2 r1 then
    if pl.vy > 0 then
      if prevPlayerY + pl.height ≤ r1.y + 1 then
        let pl := { pl with y := r1.y - pl.height, vy := 0, isJumping := false,
                            onGround := true, standingOnPlatform := some i }
        if pObj.type = "breakable" ∧ ¬ obGet pObj.isBroken ∧ ¬ obGet pObj.isBreaking then
          (ps.set i (breakStart pObj), pl)
        else (ps, pl)
      else (ps, pl)
    else if pl.vy < 0 then
      if prevPlayerY ≥ r1.y + r1.h - 1 then
        (ps, { pl with y := r1.y + r1.h, vy := 0 })
      else (ps, pl)
    else (ps, pl)
  else (ps, pl)

/-- The vertical collision pass folded over the collidable snapshot. -/
def verticalPass (coll : List (ℕ × Platform)) (prevPlayerY : ℚ)
    (ps : List Platform) (pl : Player) : List Platform × Player :=
  coll.foldl (fun acc jp => verticalCollideOne acc.1 acc.2 prevPlayerY jp.1 jp.2) (ps, pl)

/-- Standing reconciliation (lines 612-627): a player that did not re-confirm
its landing but still references a platform is re-snapped onto it when the
platform is not hidden/broken and the feet are horizontally over it and
within the proximity window, and otherwise formally loses
`standingOnPlatform`. -/
def standingReconcile (ps : List Platform) (pl : Player) : Player :=
  if ¬pl.onGround ∧ pl.standingOnPlatform.isSome then
    match pl.standingOnPlatform.bind ps.get? with
    | some p =>
      let ok := ¬((p.type = "timed" ∧ ¬ obGet p.isVisible) ∨
                  (p.type = "breakable" ∧ obGet p.isBroken))
      let pFeetY := pl.y + pl.height
      let stillOn := ok ∧
        pl.x + pl.width > p.x ∧ pl.x < p.x + p.width ∧
        pFeetY ≥ p.y ∧ pFeetY < p.y + |pl.vy| + GRAVITY + 1
      if stillOn then
        { pl with y := p.y - pl.height, vy := 0, isJumping := false, onGround := true }
      else { pl with standingOnPlatform := none }
    | none => { pl with standingOnPlatform := none }
  else pl

/-- The fall-death boundary (lines 632-635): the maximum over the parsed
descriptors of `y + DEFAULT_PLATFORM_HEIGHT` and `LOGICAL_GAME_HEIGHT`, plus
a 200-unit margin (`LOGICAL_GAME_HEIGHT + 200` for an empty level). -/
def gameWorldMaxY (parsed : List PlatformData) : ℚ :=
  if parsed.isEmpty then LOGICAL_GAME_HEIGHT + 200
  else
    (parsed.foldl (fun m pd => max m (pd.y + DEFAULT_PLATFORM_HEIGHT))
      LOGICAL_GAME_HEIGHT) + 200

/-- The respawn target on death (lines 645-648): the first platform whose
`type` is `"standard"` (or falsy), falling back to the first platform of any
type. -/
def respawnPlatform (ps : List Platform) : Platform :=
  match ps.find? (fun p => p.type = "standard" ∨ p.type = "") with
  | some p => p
  | none => ps.headI

/-- Death check and respawn (lines 636-652): past the boundary, the player
is repositioned onto `respawnPlatform` (or `(50, 100)` for an empty level);
`vy` is zeroed and jump/ground/standing/crouch state cleared (`vx` is left
as the input set it). Returns the player and whether `PlayerDied` fired. -/
def deathCheck (parsed : List PlatformData) (ps : List Platform) (pl : Player) :
    Player × Bool :=
  if pl.y > gameWorldMaxY parsed then
    let pl :=
      if ¬ps.isEmpty then
        let respawnP := respawnPlatform ps
        { pl with x := respawnP.x + respawnP.width / 2 - pl.width / 2,
                  y := respawnP.y - PLAYER_HEIGHT }
      else { pl with x := 50, y := 100 }
    ({ pl with vy := 0, isJumping := false, onGround := false,
               standingOnPlatform := none, height := PLAYER_HEIGHT,
               isCrouching := false }, true)
  else (pl, false)

/-- The completion condition of lines 654-655 evaluated on a state: the
precomputed last platform exists, the player stands on it and is grounded.
(The `onRequestNewLevel && !isLoading` conjuncts hold on every modelled
tick, see the module comment.) -/
def completionCond (s : GameState) : Bool :=
  s.lastPlatform.isSome && decide (s.player.standingOnPlatform = s.lastPlatform) &&
  s.player.onGround

/-- Completion check (lines 654-663): when the completion condition holds
and the one-shot latch is clear, emit `LevelCompleted` (request a new level)
and set the latch. Returns (emitted, new latch). -/
def completionCheck (s : GameState) : Bool × Bool :=
  if completionCond s && !s.newLevelRequested then (true, true)
  else (false, s.newLevelRequested)

/-- The movement-and-collision part of one tick (lines 450-627): platform
phase, platform carry, crouch transition, horizontal input, jump, gravity,
integration, the two axis-separated collision passes and standing
reconciliation. -/
def physicsPhase (s : GameState) (keys : Keys) : GameState :=
  let ph := platformPhase ⟨s.platforms, s.player⟩
  let pl := platformCarry ph.platforms ph.player
  let pl := crouchStep ph.platforms keys pl
  let pl := horizontalInput keys pl
  let pl := jumpStep keys pl
  let pl := gravityStep pl
  let (pl, _prevPlayerX, prevPlayerY) := integrateStep pl
  let pl := clearGroundStep ph.platforms pl
  let coll := collidable ph.platforms
  let pl := horizontalPass coll prevPlayerY pl
  let (ps2, pl) := verticalPass coll prevPlayerY ph.platforms pl
  let pl := standingReconcile ps2 pl
  { s with platforms := ps2, player := pl }

/-- The transient per-tick signals forwarded to the host. -/
structure TickEvents where
  died : Bool
  completed : Bool
  deriving DecidableEq, Repr

/-- The state just before the completion check of a tick — physics phase
followed by the death check — together with the `PlayerDied` signal. -/
def preCompletion (s : GameState) (keys : Keys) : GameState × Bool :=
  let s1 := physicsPhase s keys
  let (pl, died) := deathCheck s1.parsed s1.platforms s1.player
  ({ s1 with player := pl }, died)

/-- One full simulation tick (the state-mutating body of `gameLoop`,
lines 450-663): physics, death check, completion check. The camera update
(lines 665-688) touches no simulation state and is modelled separately by
`updateCameraPivot`. -/
def tick (s : GameState) (keys : Keys) : GameState × TickEvents :=
  let (s2, died) := preCompletion s keys
  let (emitted, latch) := completionCheck s2
  ({ s2 with newLevelRequested := latch }, ⟨died, emitted⟩)

/-- The state reached after `t` ticks from `s0` under the per-tick key
streams `ks`. -/
def trace (s0 : GameState) (ks : ℕ → Keys) : ℕ → GameState
  | 0 => s0
  | t + 1 => (tick (trace s0 ks t) (ks t)).1

/-- Whether `LevelCompleted` is emitted on tick `t` (counting from 0) of the
run of `s0` under `ks`. -/
def emittedAt (s0 : GameState) (ks : ℕ → Keys) (t : ℕ) : Bool :=
  (tick (trace s0 ks t) (ks t)).2.completed

/-- A JavaScript number by value class: an exact finite value, an infinity,
or NaN. Used where the source distinguishes finite from non-finite values
(`Number.isFinite`s of the camera controller, numeric payload fields). -/
inductive JSNum where
  | fin (q : ℚ)
  | inf
  | negInf
  | nan
  deriving DecidableEq, Repr, Inhabited

/-- `Number.isFinite`. -/
def JSNum.isFinite : JSNum → Bool
  | .fin _ => true
  | _ => false

/-- JavaScript addition on number classes (exact on finite values). -/
def JSNum.add : JSNum → JSNum → JSNum
  | .fin a, .fin b => .fin (a + b)
  | .nan, _ => .nan
  | _, .nan => .nan
  | .inf, .negInf => .nan
  | .negInf, .inf => .nan
  | .inf, _ => .inf
  | _, .inf => .inf
  | .negInf, _ => .negInf
  | _, .negInf => .negInf

/-- JavaScript negation on number classes. -/
def JSNum.neg : JSNum → JSNum
  | .fin a => .fin (-a)
  | .inf => .negInf
  | .negInf => .inf
  | .nan => .nan

/-- JavaScript subtraction on number classes. -/
def JSNum.sub (a b : JSNum) : JSNum := a.add b.neg

/-- JavaScript multiplication on number classes (exact on finite values;
an infinity times zero is NaN). -/
def JSNum.mul : JSNum → JSNum → JSNum
  | .fin a, .fin b => .fin (a * b)
  | .nan, _ => .nan
  | _, .nan => .nan
  | .inf, .inf => .inf
  | .inf, .negInf => .negInf
  | .negInf, .inf => .negInf
  | .negInf, .negInf => .inf
  | .inf, .fin b => if b > 0 then .inf else if b < 0 then .negInf else .nan
  | .negInf, .fin b => if b > 0 then .negInf else if b < 0 then .inf else .nan
  | .fin a, .inf => if a > 0 then .inf else if a < 0 then .negInf else .nan
  | .fin a, .negInf => if a > 0 then .negInf else if a < 0 then .inf else .nan

/-- JavaScript division on number classes (exact on finite values with a
nonzero divisor). -/
def JSNum.div : JSNum → JSNum → JSNum
  | .fin a, .fin b =>
    if b = 0 then (if a = 0 then .nan else if a > 0 then .inf else .negInf)
    else .fin (a / b)
  | .nan, _ => .nan
  | _, .nan => .nan
  | .inf, .inf => .nan
  | .inf, .negInf => .nan
  | .negInf, .inf => .nan
  | .negInf, .negInf => .nan
  | .inf, .fin b => if b ≥ 0 then .inf else .negInf
  | .negInf, .fin b => if b ≥ 0 then .negInf else .inf
  | .fin _, .inf => .fin 0
  | .fin _, .negInf => .fin 0

/-- The player fields read by the camera controller. -/
structure CameraPlayer where
  x : JSNum
  y : JSNum
  width : JSNum
  height : JSNum
  isCrouching : Bool
  deriving DecidableEq, Repr

/-- Camera controller (lines 665-688): compute the target pivot (the
player's center, with the crouch adjustment of line 669 while crouching);
when the current pivot or the target is non-finite, reset the pivot to the
player's center, or to the logical world center when the player position is
itself non-finite; otherwise move the pivot by `CAMERA_LERP_FACTOR` of the
remaining distance. Returns the new `(pivot.x, pivot.y)`. -/
def updateCameraPivot (pivotX pivotY : JSNum) (pl : CameraPlayer) : JSNum × JSNum :=
  let targetPivotX := pl.x.add (pl.width.div (.fin 2))
  let targetPivotY :=
    if pl.isCrouching then
      (pl.y.add (JSNum.div (.fin PLAYER_CROUCH_HEIGHT) (.fin 2))).add
        (.fin CROUCH_CAMERA_VIEW_ADJUST_WORLD)
    else pl.y.add (pl.height.div (.fin 2))
  if !pivotX.isFinite || !pivotY.isFinite ||
     !targetPivotX.isFinite || !targetPivotY.isFinite then
    if pl.x.isFinite && pl.y.isFinite then
      (pl.x.add (pl.width.div (.fin 2)), pl.y.add (pl.height.div (.fin 2)))
    else
      (.fin (LOGICAL_GAME_WIDTH / 2), .fin (LOGICAL_GAME_HEIGHT / 2))
  else
    (pivotX.add ((targetPivotX.sub pivotX).mul (.fin CAMERA_LERP_FACTOR)),
     pivotY.add ((targetPivotY.sub pivotY).mul (.fin CAMERA_LERP_FACTOR)))

/-- A platform entry of a decoded level payload, with its numeric fields as
JavaScript numbers (`JSON.parse` of a literal such as `1e999` overflows to
`Infinity`). -/
structure RawPlatform where
  x : JSNum
  y : JSNum
  width : JSNum
  type : Option String
  deriving DecidableEq, Repr

/-- An obstacle entry of a decoded level payload. -/
structure RawObstacle where
  x : JSNum
  y : JSNum
  type : Option String
  deriving DecidableEq, Repr

/-- The object produced by `JSON.parse` on a level payload, before
`parseLevelData`'s own adjustments: the `platforms` and `obstacles` fields
may be absent (or not arrays), modelled as `none`. -/
structure RawParsed where
  platforms : Option (List RawPlatform)
  obstacles : Option (List RawObstacle)
  deriving DecidableEq, Repr

/-- The `ParsedLevelData` returned to the caller. -/
structure ParsedLevelDataRaw where
  platforms : List RawPlatform
  obstacles : List RawObstacle
  deriving DecidableEq, Repr

/-- `parseLevelData` (lines 32-45) after the `JSON.parse` boundary: the
input is `none` when the payload was missing, empty after trimming, or
failed to parse (the `catch` branch), in which case the parser yields no
level; otherwise the decoded object is returned as-is except that a
missing/non-array `platforms` or `obstacles` is replaced by an empty array.
No numeric validation is performed. -/
def parseLevelData (input : Option RawParsed) : Option ParsedLevelDataRaw :=
  match input with
  | none => none
  | some d => some { platforms := d.platforms.getD [], obstacles := d.obstacles.getD [] }

/-- The completion condition as evaluated inside tick `t` of a run (at the
point of lines 654-655, i.e. after the death check of the same tick). -/
def condAt (s0 : GameState) (ks : ℕ → Keys) (t : ℕ) : Bool :=
  completionCond (preCompletion (trace s0 ks t) (ks t)).1

/-- Whether the player's `standingOnPlatform` references a platform of `ps`
that is currently solid. -/
def standingSolid (ps : List Platform) (pl : Player) : Bool :=
  match pl.standingOnPlatform with
  | some i =>
    match ps.get? i with
    | some p => platformSolid p
    | none => false
  | none => false

/-- A breakable platform is never left in the transient "mid-collapse"
configuration `isBreaking ∧ ¬isBroken ∧ breakingTimer ≤ 0`: landings set the
countdown to the positive break delay and the platform phase flips a
countdown that ran out to broken in the same iteration, so every state the
simulation constructs satisfies this. -/
def noMidCollapse (p : Platform) : Bool :=
  !(p.type == "breakable" && obGet p.isBreaking && !(obGet p.isBroken) &&
    (match p.breakingTimer with
     | some t => decide (t ≤ 0)
     | none => false))

/-! ### Basic lemmas about the collision test -/

theorem checkCollision_eq_true_iff (r1 r2 : Rect) :
    checkCollision r1 r2 = true ↔
      r1.x < r2.x + r2.w ∧ r1.x + r1.w > r2.x ∧
      r1.y < r2.y + r2.h ∧ r1.y + r1.h > r2.y := by
  simp [checkCollision, and_assoc]

theorem checkCollision_eq_false_iff (r1 r2 : Rect) :
    checkCollision r1 r2 = false ↔
      r2.x + r2.w ≤ r1.x ∨ r2.x ≥ r1.x + r1.w ∨
      r2.y + r2.h ≤ r1.y ∨ r2.y ≥ r1.y + r1.h := by
  rw [← Bool.not_eq_true, checkCollision_eq_true_iff]
  constructor
  · intro h
    rcases le_or_lt (r2.x + r2.w) r1.x with h1 | h1
    · exact Or.inl h1
    rcases le_or_lt (r1.x + r1.w) r2.x with h2 | h2
    · exact Or.inr (Or.inl h2)
    rcases le_or_lt (r2.y + r2.h) r1.y with h3 | h3
    · exact Or.inr (Or.inr (Or.inl h3))
    rcases le_or_lt (r1.y + r1.h) r2.y with h4 | h4
    · exact Or.inr (Or.inr (Or.inr h4))
    · exact absurd ⟨h1, h2, h3, h4⟩ h
  · intro h hc
    obtain ⟨a, b, c, d⟩ := hc
    rcases h with h | h | h | h
    · linarith
    · linarith
    · linarith
    · linarith

/-! ### C10: simultaneous left and right input -/

/-- C10: on a tick where the player is not crouching and both the left and
the right movement inputs are held, the horizontal-input step sets the
player's horizontal velocity to the positive fixed speed `PLAYER_SPEED`:
the right assignment comes after the left one in the source (lines 541-545)
and overwrites it, so the inputs do not cancel. -/
theorem C10_right_input_precedence (keys : Keys) (pl : Player)
    (hc : pl.isCrouching = false)
    (hl : (keys.has "KeyA" || keys.has "ArrowLeft") = true)
    (hr : (keys.has "KeyD" || keys.has "ArrowRight") = true) :
    (horizontalInput keys pl).vx = PLAYER_SPEED := by
  simp [horizontalInput, hc, hl, hr]

/-- Concrete player fixture for the C10 witness. -/
def c10Player : Player :=
  { x := 0, y := 0, vx := 0, vy := 0, isJumping := false, isCrouching := false,
    onGround := true, width := 8, height := 16, standingOnPlatform := none }

/-- Concrete key set for the C10 witness: both left and right held. -/
def c10Keys : Keys := ["KeyA", "KeyD"]

/-- Witness for C10 at a concrete input. -/
theorem C10_right_input_precedence_witness :
    c10Player.isCrouching = false ∧
    (c10Keys.has "KeyA" || c10Keys.has "ArrowLeft") = true ∧
    (c10Keys.has "KeyD" || c10Keys.has "ArrowRight") = true ∧
    (horizontalInput c10Keys c10Player).vx = PLAYER_SPEED :=
  ⟨rfl, by decide, by decide,
    C10_right_input_precedence c10Keys c10Player rfl (by decide) (by decide)⟩

/-! ### C3: vertical collision pass -/

/-- C3: in the vertical collision pass, for a currently-solid platform that
the (not yet re-grounded) player overlaps: a downward-moving player
(`vy > 0`) registers a landing if and only if the previous-tick bottom edge
was at or above the platform's top edge plus the 1-unit tolerance, and on
landing the vertical velocity is zeroed, jumping cleared, `onGround` set and
`standingOnPlatform` recorded; an upward-moving player (`vy < 0`) does not
land, and when its previous top edge was at or below the platform's bottom
edge it is placed at the platform's underside with its vertical velocity
zeroed. -/
theorem C3_vertical_pass_tolerance (ps : List Platform) (pl : Player)
    (prevPlayerY : ℚ) (i : ℕ) (pObj : Platform)
    (_hsolid : platformSolid pObj = true)
    (hover : checkCollision (playerRect pl) (platformRect pObj) = true)
    (hng : pl.onGround = false) :
    (pl.vy > 0 →
      ((verticalCollideOne ps pl prevPlayerY i pObj).2.onGround = true ↔
        prevPlayerY + pl.height ≤ pObj.y + 1) ∧
      (prevPlayerY + pl.height ≤ pObj.y + 1 →
        (verticalCollideOne ps pl prevPlayerY i pObj).2 =
          { pl with y := pObj.y - pl.height, vy := 0, isJumping := false,
                    onGround := true, standingOnPlatform := some i })) ∧
    (pl.vy < 0 →
      (verticalCollideOne ps pl prevPlayerY i pObj).2.onGround = false ∧
      (verticalCollideOne ps pl prevPlayerY i pObj).2.standingOnPlatform =
        pl.standingOnPlatform ∧
      (prevPlayerY ≥ pObj.y + pObj.height →
        (verticalCollideOne ps pl prevPlayerY i pObj).2 =
          { pl with y := pObj.y + pObj.height, vy := 0 })) := by
  have hover' : checkCollision ⟨pl.x, pl.y, pl.width, pl.height⟩ (platformRect pObj) = true := hover
  constructor
  · intro hvy
    by_cases htol : prevPlayerY + pl.height ≤ pObj.y + 1
    · constructor
      · rw [iff_true_right htol]
        simp only [verticalCollideOne, platformRect] at *
        rw [hover']
        simp only [if_true]
        rw [if_pos hvy, if_pos htol]
        split <;> rfl
      · intro _
        simp only [verticalCollideOne, platformRect] at *
        rw [hover']
        simp only [if_true]
        rw [if_pos hvy, if_pos htol]
        split <;> rfl
    · constructor
      · simp only [verticalCollideOne, platformRect] at *
        rw [hover']
        simp only [if_true]
        rw [if_pos hvy, if_neg htol]
        simp [hng, htol]
      · intro hc
        exact absurd hc htol
  · intro hvy
    have hvy' : ¬ pl.vy > 0 := by linarith
    by_cases hbump : prevPlayerY ≥ pObj.y + pObj.height - 1
    · refine ⟨?_, ?_, ?_⟩
      · simp only [verticalCollideOne, platformRect] at *
        rw [hover']
        simp only [if_true]
        rw [if_neg hvy', if_pos hvy, if_pos hbump]
        exact hng
      · simp only [verticalCollideOne, platformRect] at *
        rw [hover']
        simp only [if_true]
        rw [if_neg hvy', if_pos hvy, if_pos hbump]
      · intro _
        simp only [verticalCollideOne, platformRect] at *
        rw [hover']
        simp only [if_true]
        rw [if_neg hvy', if_pos hvy, if_pos hbump]
    · refine ⟨?_, ?_, ?_⟩
      · simp only [verticalCollideOne, platformRect] at *
        rw [hover']
        simp only [if_true]
        rw [if_neg hvy', if_pos hvy, if_neg hbump]
        exact hng
      · simp only [verticalCollideOne, platformRect] at *
        rw [hover']
        simp only [if_true]
        rw [if_neg hvy', if_pos hvy, if_neg hbump]
      · intro hc
        exact absurd (by linarith : prevPlayerY ≥ pObj.y + pObj.height - 1) hbump

/-- Concrete solid platform fixture for the C3 witness. -/
def c3Platform : Platform :=
  mkPlatformObject { x := 0, y := 100, width := 50, type := some "standard" }

/-- Concrete falling player fixture for the C3 witness, overlapping
`c3Platform` with a previous bottom edge above the platform top. -/
def c3Player : Player :=
  { x := 10, y := 95, vx := 0, vy := 5, isJumping := true, isCrouching := false,
    onGround := false, width := 8, height := 16, standingOnPlatform := none }

/-- Witness for C3: at the concrete falling player, the landing is
registered with the full landing effect. -/
theorem C3_vertical_pass_tolerance_witness :
    platformSolid c3Platform = true ∧
    checkCollision (playerRect c3Player) (platformRect c3Platform) = true ∧
    c3Player.onGround = false ∧ c3Player.vy > 0 ∧
    (79 : ℚ) + c3Player.height ≤ c3Platform.y + 1 ∧
    (verticalCollideOne [c3Platform] c3Player 79 0 c3Platform).2 =
      { c3Player with y := c3Platform.y - c3Player.height, vy := 0,
                      isJumping := false, onGround := true,
                      standingOnPlatform := some 0 } :=
  ⟨by with_unfolding_all rfl, by with_unfolding_all rfl, rfl,
    of_decide_eq_true (by with_unfolding_all rfl),
    of_decide_eq_true (by with_unfolding_all rfl),
    ((C3_vertical_pass_tolerance [c3Platform] c3Player 79 0 c3Platform
        (by with_unfolding_all rfl) (by with_unfolding_all rfl) rfl).1
      (of_decide_eq_true (by with_unfolding_all rfl))).2
      (of_decide_eq_true (by with_unfolding_all rfl))⟩

/-! ### C7: crouch release under a ceiling -/

/-- Ground platform fixture for the C7 counterexample. -/
def c7Ground : Platform :=
  mkPlatformObject { x := 0, y := 100, width := 50, type := some "standard" }

/-- Ceiling fixture for the C7 counterexample: a breakable platform in its
break-delay phase (`isBreaking`, positive timer). It is still solid for
collision purposes (`platformSolid`), but the uncrouch check of line 533
ignores it. -/
def c7Ceil : Platform :=
  { mkPlatformObject { x := 0, y := 85, width := 50, type := some "breakable" } with
      isBreaking := some true, breakingTimer := some 10 }

/-- Crouched player fixture for the C7 counterexample, standing on
`c7Ground` with `c7Ceil` directly above its full-height box. -/
def c7Player : Player :=
  { x := 10, y := 92, vx := 0, vy := 0, isJumping := false, isCrouching := true,
    onGround := true, width := 8, height := 8, standingOnPlatform := some 0 }

/-- Counterexample to C7 as stated: with no crouch key held (an uncrouch
input), the would-be full-height box overlaps `c7Ceil`, which is a solid
platform, yet the uncrouch is not refused — the player stands up into the
still-solid breaking platform, because line 533 treats any `isBreaking`
breakable as non-blocking while the collision passes keep it solid until its
countdown expires. -/
theorem C7_counterexample :
    platformSolid c7Ceil = true ∧
    checkCollision ⟨c7Player.x, c7Player.y - (PLAYER_HEIGHT - PLAYER_CROUCH_HEIGHT),
        c7Player.width, PLAYER_HEIGHT⟩ (platformRect c7Ceil) = true ∧
    c7Player.isCrouching = true ∧
    (crouchStep [c7Ground, c7Ceil] [] c7Player).isCrouching = false ∧
    (crouchStep [c7Ground, c7Ceil] [] c7Player).height = PLAYER_HEIGHT := by
  refine ⟨?_, ?_, rfl, ?_, ?_⟩ <;> with_unfolding_all rfl

/-- C7 amended: on a tick on which a crouched player gives an uncrouch
input, the uncrouch is refused (the player stays crouched at crouch height,
position unchanged) exactly when the would-be full-height bounding box
overlaps some platform that the uncrouch check treats as blocking — solid
and, when breakable, not yet in its breaking phase (`uncrouchBlockSolid`) —
and otherwise the player returns to full height, shifting up by the height
difference, on that very tick. -/
theorem C7_uncrouch_amended (ps : List Platform) (keys : Keys) (pl : Player)
    (hc : pl.isCrouching = true)
    (hh : pl.height = PLAYER_CROUCH_HEIGHT)
    (hin : ((keys.has "KeyS" || keys.has "ArrowDown") && pl.onGround) = false) :
    ((ps.any fun p => uncrouchBlockSolid p &&
        checkCollision ⟨pl.x, pl.y - (PLAYER_HEIGHT - PLAYER_CROUCH_HEIGHT),
          pl.width, PLAYER_HEIGHT⟩ (platformRect p)) = true →
      (crouchStep ps keys pl).isCrouching = true ∧
      (crouchStep ps keys pl).height = PLAYER_CROUCH_HEIGHT ∧
      (crouchStep ps keys pl).y = pl.y) ∧
    ((ps.any fun p => uncrouchBlockSolid p &&
        checkCollision ⟨pl.x, pl.y - (PLAYER_HEIGHT - PLAYER_CROUCH_HEIGHT),
          pl.width, PLAYER_HEIGHT⟩ (platformRect p)) = false →
      (crouchStep ps keys pl).isCrouching = false ∧
      (crouchStep ps keys pl).height = PLAYER_HEIGHT ∧
      (crouchStep ps keys pl).y = pl.y - (PLAYER_HEIGHT - PLAYER_CROUCH_HEIGHT)) := by
  have hne : PLAYER_CROUCH_HEIGHT ≠ PLAYER_HEIGHT := by
    norm_num [PLAYER_CROUCH_HEIGHT, PLAYER_HEIGHT]
  constructor
  · intro hany
    simp [crouchStep, hc, hh, hin, hne, hany]
  · intro hany
    simp [crouchStep, hc, hh, hin, hne, hany]

/-- Blocking ceiling fixture for the C7 witness (an ordinary standard
platform overlapping the full-height box). -/
def c7wCeil : Platform :=
  mkPlatformObject { x := 0, y := 85, width := 50, type := some "standard" }

/-- Witness for the amended C7 at a concrete blocked player: the uncrouch
is refused. -/
theorem C7_uncrouch_amended_witness :
    c7Player.isCrouching = true ∧ c7Player.height = PLAYER_CROUCH_HEIGHT ∧
    ((Keys.has [""] "KeyS" || Keys.has [""] "ArrowDown") &&
      c7Player.onGround) = false ∧
    ([c7Ground, c7wCeil].any fun p => uncrouchBlockSolid p &&
        checkCollision ⟨c7Player.x, c7Player.y - (PLAYER_HEIGHT - PLAYER_CROUCH_HEIGHT),
          c7Player.width, PLAYER_HEIGHT⟩ (platformRect p)) = true ∧
    (crouchStep [c7Ground, c7wCeil] [""] c7Player).isCrouching = true ∧
    (crouchStep [c7Ground, c7wCeil] [""] c7Player).height = PLAYER_CROUCH_HEIGHT ∧
    (crouchStep [c7Ground, c7wCeil] [""] c7Player).y = c7Player.y :=
  ⟨rfl, by with_unfolding_all rfl, by with_unfolding_all rfl,
    by with_unfolding_all rfl,
    (C7_uncrouch_amended [c7Ground, c7wCeil] [""] c7Player rfl
        (by with_unfolding_all rfl) (by with_unfolding_all rfl)).1
      (by with_unfolding_all rfl) |>.1,
    (C7_uncrouch_amended [c7Ground, c7wCeil] [""] c7Player rfl
        (by with_unfolding_all rfl) (by with_unfolding_all rfl)).1
      (by with_unfolding_all rfl) |>.2.1,
    (C7_uncrouch_amended [c7Ground, c7wCeil] [""] c7Player rfl
        (by with_unfolding_all rfl) (by with_unfolding_all rfl)).1
      (by with_unfolding_all rfl) |>.2.2⟩

/-! ### C9: camera smoothing and non-finite reset -/

/-- C9: on a tick with finite camera and target state the camera pivot moves
by exactly `CAMERA_LERP_FACTOR` (0.1) of the remaining distance toward the
target focus point — the player's center, shifted down by the fixed
world-space offset `CROUCH_CAMERA_VIEW_ADJUST_WORLD` while crouching — and
when the current pivot or the target is non-finite the pivot is instead
reset to the player's center, or to the logical world center when the player
position is itself non-finite. -/
theorem C9_camera_lerp_and_reset (pivotX pivotY : JSNum) (pl : CameraPlayer)
    (hcr : pl.isCrouching = true → pl.height = .fin PLAYER_CROUCH_HEIGHT) :
    (∀ px py qx qy w h : ℚ, pivotX = .fin px → pivotY = .fin py →
      pl.x = .fin qx → pl.y = .fin qy → pl.width = .fin w → pl.height = .fin h →
      updateCameraPivot pivotX pivotY pl =
        (.fin (px + (qx + w / 2 - px) * CAMERA_LERP_FACTOR),
         .fin (py + (qy + h / 2 +
           (if pl.isCrouching then CROUCH_CAMERA_VIEW_ADJUST_WORLD else 0) - py) *
           CAMERA_LERP_FACTOR))) ∧
    ((pivotX.isFinite && pivotY.isFinite &&
      (pl.x.add (pl.width.div (.fin 2))).isFinite &&
      (if pl.isCrouching then
        ((pl.y.add (JSNum.div (.fin PLAYER_CROUCH_HEIGHT) (.fin 2))).add
          (.fin CROUCH_CAMERA_VIEW_ADJUST_WORLD))
       else pl.y.add (pl.height.div (.fin 2))).isFinite) = false →
      updateCameraPivot pivotX pivotY pl =
        (if pl.x.isFinite && pl.y.isFinite then
          (pl.x.add (pl.width.div (.fin 2)), pl.y.add (pl.height.div (.fin 2)))
         else (.fin (LOGICAL_GAME_WIDTH / 2), .fin (LOGICAL_GAME_HEIGHT / 2)))) := by
  constructor
  · intro px py qx qy w h hpx hpy hqx hqy hw hh
    subst hpx
    subst hpy
    by_cases hcrouch : pl.isCrouching = true
    · have hh8 : pl.height = .fin PLAYER_CROUCH_HEIGHT := hcr hcrouch
      have h8 : h = PLAYER_CROUCH_HEIGHT := by
        have hfin : JSNum.fin h = JSNum.fin PLAYER_CROUCH_HEIGHT := by
          rw [← hh, hh8]
        injection hfin
      subst h8
      simp only [updateCameraPivot, hcrouch, if_true, hqx, hqy, hw]
      norm_num [JSNum.add, JSNum.sub, JSNum.neg, JSNum.mul, JSNum.div,
        JSNum.isFinite, PLAYER_CROUCH_HEIGHT]
      constructor
      · first
        | exact Or.inl trivial
        | ring1
        | exact Or.inl (by ring1)
      · first
        | exact Or.inl trivial
        | ring1
        | exact Or.inl (by ring1)
    · have hcrouch' : pl.isCrouching = false := by
        revert hcrouch
        cases pl.isCrouching <;> simp
      simp only [updateCameraPivot, hcrouch', if_false, hqx, hqy, hw, hh,
        Bool.false_eq_true]
      norm_num [JSNum.add, JSNum.sub, JSNum.neg, JSNum.mul, JSNum.div,
        JSNum.isFinite]
      constructor
      · first
        | exact Or.inl trivial
        | ring1
        | exact Or.inl (by ring1)
      · first
        | exact Or.inl trivial
        | ring1
        | exact Or.inl (by ring1)
  · intro hnf
    simp only [updateCameraPivot]
    cases h1 : pivotX.isFinite <;> cases h2 : pivotY.isFinite <;>
      cases h3 : (pl.x.add (pl.width.div (.fin 2))).isFinite <;>
      cases h4 : (if pl.isCrouching then
          ((pl.y.add (JSNum.div (.fin PLAYER_CROUCH_HEIGHT) (.fin 2))).add
            (.fin CROUCH_CAMERA_VIEW_ADJUST_WORLD))
         else pl.y.add (pl.height.div (.fin 2))).isFinite <;>
      simp_all

/-- Concrete camera-player fixture for the C9 witness. -/
def c9Player : CameraPlayer :=
  { x := .fin 10, y := .fin 84, width := .fin 8, height := .fin 16,
    isCrouching := false }

/-- Witness for C9 at a concrete finite pivot and player: the pivot moves by
exactly the smoothing fraction of the remaining distance. -/
theorem C9_camera_lerp_and_reset_witness :
    (c9Player.isCrouching = true → c9Player.height = .fin PLAYER_CROUCH_HEIGHT) ∧
    updateCameraPivot (.fin 0) (.fin 0) c9Player =
      (.fin (0 + (10 + 8 / 2 - 0) * CAMERA_LERP_FACTOR),
       .fin (0 + (84 + 16 / 2 +
         (if c9Player.isCrouching then CROUCH_CAMERA_VIEW_ADJUST_WORLD else 0) - 0) *
         CAMERA_LERP_FACTOR)) :=
  ⟨fun h => by simp [c9Player] at h,
    (C9_camera_lerp_and_reset (.fin 0) (.fin 0) c9Player
        (fun h => by simp [c9Player] at h)).1 0 0 10 84 8 16
      rfl rfl rfl rfl rfl rfl⟩

/-! ### C8: parser and non-finite coordinates -/

/-- Decoded payload fixture for the C8 counterexample. It is the result of
`JSON.parse` on the well-formed JSON payload
`'{"platforms":[{"x":1e999,"y":0,"width":10}]}'`: the literal `1e999`
overflows the IEEE double range, so JavaScript decodes it to `Infinity`. -/
def c8Input : RawParsed :=
  { platforms := some [{ x := .inf, y := .fin 0, width := .fin 10, type := none }],
    obstacles := none }

/-- Counterexample to C8 as stated: `parseLevelData` returns a level
description whose platform has the non-finite coordinate `x = Infinity` —
the parser performs no finiteness validation on the decoded numbers. -/
theorem C8_counterexample :
    parseLevelData (some c8Input) =
      some { platforms := [{ x := .inf, y := .fin 0, width := .fin 10, type := none }],
             obstacles := [] } ∧
    JSNum.isFinite .inf = false := ⟨rfl, rfl⟩

/-- C8 amended: the parser passes the decoded platform entries through
unvalidated (defaulting a missing or non-array `platforms`/`obstacles` field
to an empty array and yielding no level for an unparsable payload), so its
output contains a platform with a non-finite coordinate exactly when the
decoded payload did; in particular, for every payload all of whose decoded
platform coordinates are finite, the returned level contains only finite
coordinates. -/
theorem C8_parser_passthrough (d : RawParsed) (out : ParsedLevelDataRaw)
    (hfin : ∀ p ∈ d.platforms.getD [],
      p.x.isFinite = true ∧ p.y.isFinite = true ∧ p.width.isFinite = true)
    (hout : parseLevelData (some d) = some out) :
    out.platforms = d.platforms.getD [] ∧
    (∀ p ∈ out.platforms,
      p.x.isFinite = true ∧ p.y.isFinite = true ∧ p.width.isFinite = true) ∧
    parseLevelData none = none := by
  have hout' : out = { platforms := d.platforms.getD [], obstacles := d.obstacles.getD [] } := by
    simpa [parseLevelData] using hout.symm
  subst hout'
  exact ⟨rfl, hfin, rfl⟩

/-- Witness for the amended C8 at a concrete all-finite payload. -/
theorem C8_parser_passthrough_witness :
    (∀ p ∈ (some [({ x := .fin 1, y := .fin 2, width := .fin 3, type := some "standard" } : RawPlatform)]).getD [],
      p.x.isFinite = true ∧ p.y.isFinite = true ∧ p.width.isFinite = true) ∧
    (∀ p ∈ [({ x := .fin 1, y := .fin 2, width := .fin 3, type := some "standard" } : RawPlatform)],
      p.x.isFinite = true ∧ p.y.isFinite = true ∧ p.width.isFinite = true) :=
  ⟨by decide, by
    have h := C8_parser_passthrough
      { platforms := some [{ x := .fin 1, y := .fin 2, width := .fin 3, type := some "standard" }],
        obstacles := none }
      { platforms := [{ x := .fin 1, y := .fin 2, width := .fin 3, type := some "standard" }],
        obstacles := [] }
      (by decide) rfl
    exact h.2.1⟩

/-! ### C6: fall death boundary and respawn -/

/-- Descriptor fixture for the C6 counterexample: a single standard platform
near the top of the world (`y = 0`). -/
def c6Pd : PlatformData := { x := 0, y := 0, width := 10, type := some "standard" }

/-- Player fixture for the C6 counterexample, airborne at `y = 400` — beyond
the claimed boundary `(tallest platform y-extent) + 200 = 210`, but not
beyond the boundary the code computes,
`max(tallest platform y-extent, LOGICAL_GAME_HEIGHT) + 200 = 500`. -/
def c6Player : Player :=
  { x := 0, y := 400, vx := 0, vy := 0, isJumping := false, isCrouching := false,
    onGround := false, width := 8, height := 16, standingOnPlatform := none }

/-- Level-state fixture for the C6 counterexample. -/
def c6State : GameState :=
  { parsed := [c6Pd], platforms := [mkPlatformObject c6Pd], player := c6Player,
    lastPlatform := some 0, newLevelRequested := true }

/-- Counterexample to C6 as stated: the player's `y` (400.3 after the
movement phase) exceeds the claimed death boundary — the tallest platform
y-extent plus the fixed 200-unit margin, here `0 + 10 + 200 = 210` — yet the
tick emits no `PlayerDied` and leaves the player falling instead of
repositioning it, because the code clamps the boundary from below by
`LOGICAL_GAME_HEIGHT` (line 634), giving `max(10, 300) + 200 = 500`. -/
theorem C6_counterexample :
    (physicsPhase c6State []).player.y = 4003/10 ∧
    c6Pd.y + DEFAULT_PLATFORM_HEIGHT + 200 < 4003/10 ∧
    (tick c6State []).2.died = false ∧
    (tick c6State []).1.player.y = 4003/10 ∧
    (tick c6State []).1.player.y ≠
      (respawnPlatform (tick c6State []).1.platforms).y - PLAYER_HEIGHT := by
  refine ⟨?_, ?_, ?_, ?_, ?_⟩
  · with_unfolding_all rfl
  · exact of_decide_eq_true (by with_unfolding_all rfl)
  · with_unfolding_all rfl
  · with_unfolding_all rfl
  · exact of_decide_eq_true (by with_unfolding_all rfl)

/-- C6 amended: whenever the player's `y` after the movement/collision phase
exceeds the code's death boundary `max(tallest platform y-extent,
LOGICAL_GAME_HEIGHT) + 200`, within that same tick `PlayerDied` fires and
the player is repositioned onto the first `"standard"`-typed platform
(falling back to the first platform of any type, or the fixed point
`(50, 100)` if no platforms exist), its vertical velocity is zeroed, and its
jump, crouch, onGround and standingOn state are all cleared (the horizontal
velocity keeps the value the input assigned this tick). -/
theorem C6_death_respawn_amended (s : GameState) (keys : Keys)
    (h : (physicsPhase s keys).player.y > gameWorldMaxY s.parsed) :
    (tick s keys).2.died = true ∧
    (tick s keys).1.player.vy = 0 ∧
    (tick s keys).1.player.isJumping = false ∧
    (tick s keys).1.player.onGround = false ∧
    (tick s keys).1.player.standingOnPlatform = none ∧
    (tick s keys).1.player.isCrouching = false ∧
    (tick s keys).1.player.height = PLAYER_HEIGHT ∧
    (tick s keys).1.player.vx = (physicsPhase s keys).player.vx ∧
    ((physicsPhase s keys).platforms.isEmpty = false →
      (tick s keys).1.player.x =
        (respawnPlatform (physicsPhase s keys).platforms).x +
          (respawnPlatform (physicsPhase s keys).platforms).width / 2 -
          (physicsPhase s keys).player.width / 2 ∧
      (tick s keys).1.player.y =
        (respawnPlatform (physicsPhase s keys).platforms).y - PLAYER_HEIGHT) ∧
    ((physicsPhase s keys).platforms.isEmpty = true →
      (tick s keys).1.player.x = 50 ∧ (tick s keys).1.player.y = 100) := by
  have hplayer : (tick s keys).1.player =
      (deathCheck s.parsed (physicsPhase s keys).platforms
        (physicsPhase s keys).player).1 := rfl
  have hdied : (tick s keys).2.died =
      (deathCheck s.parsed (physicsPhase s keys).platforms
        (physicsPhase s keys).player).2 := rfl
  rw [hplayer, hdied]
  simp only [deathCheck, if_pos h]
  by_cases he : (physicsPhase s keys).platforms.isEmpty = true
  · simp [he]
  · have he' : (physicsPhase s keys).platforms.isEmpty = false :=
      Bool.eq_false_iff.mpr he
    simp [he']

/-- Level-state fixture for the C6 witness: the player has fallen to
`y = 600`, past the code's boundary of 500. -/
def c6wState : GameState :=
  { c6State with player := { c6Player with y := 600 } }

/-- Witness for the amended C6 at a concrete fallen player: `PlayerDied`
fires and the player is respawned on the standard platform. -/
theorem C6_death_respawn_amended_witness :
    (physicsPhase c6wState []).player.y > gameWorldMaxY c6wState.parsed ∧
    (tick c6wState []).2.died = true ∧
    (tick c6wState []).1.player.onGround = false ∧
    (tick c6wState []).1.player.vy = 0 :=
  ⟨of_decide_eq_true (by with_unfolding_all rfl),
    (C6_death_respawn_amended c6wState []
      (of_decide_eq_true (by with_unfolding_all rfl))).1,
    (C6_death_respawn_amended c6wState []
      (of_decide_eq_true (by with_unfolding_all rfl))).2.2.2.1,
    (C6_death_respawn_amended c6wState []
      (of_decide_eq_true (by with_unfolding_all rfl))).2.1⟩

/-! ### C2: breakable platform life cycle -/

theorem mobileStepX_of_type_ne (ps : List Platform) (i : ℕ) (p : Platform)
    (h : p.type ≠ "mobile") : mobileStepX ps i p = p := by
  simp [mobileStepX, h]

theorem mobileStepY_of_type_ne (ps : List Platform) (i : ℕ) (p : Platform)
    (h : p.type ≠ "vertical_mobile") : mobileStepY ps i p = p := by
  simp [mobileStepY, h]

theorem timedStep_of_type_ne (p : Platform) (h : p.type ≠ "timed") :
    timedStep p = p := by
  simp [timedStep, h]

/-- For a breakable platform the platform-phase iteration reduces to the
speed reset and the breakable branch (`breakableTick`), plus the same-tick
clearing of the standing player when the platform flips to broken. -/
theorem stepPlatformAt_breakable (st : PhaseSt) (i : ℕ) (p : Platform)
    (hget : st.platforms.get? i = some p) (hty : p.type = "breakable") :
    (stepPlatformAt st i).platforms = st.platforms.set i (breakableTick p) ∧
    (stepPlatformAt st i).player =
      (if (breakableStep { p with currentSpeedX := 0, currentSpeedY := 0 }).2 ∧
          st.player.standingOnPlatform = some i then
        { st.player with standingOnPlatform := none, onGround := false }
      else st.player) ∧
    (∀ j, j ≠ i → (stepPlatformAt st i).platforms.get? j = st.platforms.get? j) := by
  have hm : ({ p with currentSpeedX := 0, currentSpeedY := 0 } : Platform).type ≠ "mobile" := by
    simp [hty]
  have hv : ({ p with currentSpeedX := 0, currentSpeedY := 0 } : Platform).type ≠ "vertical_mobile" := by
    simp [hty]
  have ht : ({ p with currentSpeedX := 0, currentSpeedY := 0 } : Platform).type ≠ "timed" := by
    simp [hty]
  refine ⟨?_, ?_, ?_⟩
  · simp only [stepPlatformAt, hget, mobileStepX_of_type_ne _ _ _ hm,
      mobileStepY_of_type_ne _ _ _ hv, timedStep_of_type_ne _ ht, breakableTick]
  · simp only [stepPlatformAt, hget, mobileStepX_of_type_ne _ _ _ hm,
      mobileStepY_of_type_ne _ _ _ hv, timedStep_of_type_ne _ ht]
  · intro j hj
    simp only [stepPlatformAt, hget, mobileStepX_of_type_ne _ _ _ hm,
      mobileStepY_of_type_ne _ _ _ hv, timedStep_of_type_ne _ ht]
    exact List.get?_set_ne _ _ (fun hc => hj hc.symm)

/-- One breakable platform-phase iteration during the break-delay countdown
(timer still above 1): only the timer decreases. -/
theorem breakableTick_decrement (p : Platform) (t : ℚ)
    (hty : p.type = "breakable") (hbk : p.isBreaking = some true)
    (ht : p.breakingTimer = some t) (h1 : 1 < t) :
    breakableTick p =
      { p with currentSpeedX := 0, currentSpeedY := 0,
               breakingTimer := some (t - 1) } := by
  have h0 : (0 : ℚ) < t := by linarith
  have h1' : ¬ t - 1 ≤ 0 := by linarith
  simp [breakableTick, breakableStep, hty, hbk, ht, obGet, h0, h1']

/-- The breakable platform-phase iteration on which the countdown runs out:
the platform flips to broken and invisible and the respawn countdown is
loaded; the flip flag is set. -/
theorem breakableTick_flip (p : Platform) (t : ℚ)
    (hty : p.type = "breakable") (hbk : p.isBreaking = some true)
    (ht : p.breakingTimer = some t) (h0 : 0 < t) (h1 : t ≤ 1) :
    breakableTick p =
      { p with currentSpeedX := 0, currentSpeedY := 0,
               breakingTimer := some (t - 1), isBroken := some true,
               spriteVisible := false,
               respawnTimer := some BREAKABLE_PLATFORM_RESPAWN_DURATION,
               isBreaking := some false } ∧
    (breakableStep { p with currentSpeedX := 0, currentSpeedY := 0 }).2 = true := by
  have h1' : t - 1 ≤ 0 := by linarith
  constructor
  · simp [breakableTick, breakableStep, hty, hbk, ht, obGet, h0, h1']
  · simp [breakableStep, hty, hbk, ht, obGet, h0, h1']

/-- One breakable platform-phase iteration during the respawn countdown
(timer still above 1): only the respawn timer decreases. -/
theorem breakableTick_respawn_decrement (p : Platform) (r : ℚ)
    (hty : p.type = "breakable") (hbk : p.isBreaking = some false)
    (hbr : p.isBroken = some true) (hr : p.respawnTimer = some r) (h1 : 1 < r) :
    breakableTick p =
      { p with currentSpeedX := 0, currentSpeedY := 0,
               respawnTimer := some (r - 1) } := by
  have h1' : ¬ r - 1 ≤ 0 := by linarith
  simp [breakableTick, breakableStep, hty, hbk, hbr, hr, obGet, h1']

/-- The breakable platform-phase iteration on which the respawn countdown
runs out: the platform becomes intact (solid and visible) again. -/
theorem breakableTick_respawn_flip (p : Platform) (r : ℚ)
    (hty : p.type = "breakable") (hbk : p.isBreaking = some false)
    (hbr : p.isBroken = some true) (hr : p.respawnTimer = some r) (h1 : r ≤ 1) :
    breakableTick p =
      { p with currentSpeedX := 0, currentSpeedY := 0,
               respawnTimer := some (r - 1), isBroken := some false,
               spriteVisible := true, isBreaking := some false,
               breakingTimer := some 0 } := by
  have h1' : r - 1 ≤ 0 := by linarith
  simp [breakableTick, breakableStep, hty, hbk, hbr, hr, obGet, h1']

/-- Characterization of the break-delay countdown across platform phases:
while fewer phases than the timer value have elapsed, the platform is still
breaking with the timer decreased accordingly, and its visibility is
untouched. -/
theorem breakable_countdown_iterate (p : Platform) (t : ℕ)
    (hty : p.type = "breakable") (hbk : p.isBreaking = some true)
    (hbr : p.isBroken = some false) (ht : p.breakingTimer = some (t : ℚ)) :
    ∀ k : ℕ, k < t →
      (breakableTick^[k] p).type = "breakable" ∧
      (breakableTick^[k] p).isBreaking = some true ∧
      (breakableTick^[k] p).isBroken = some false ∧
      (breakableTick^[k] p).breakingTimer = some ((t - k : ℕ) : ℚ) ∧
      (breakableTick^[k] p).spriteVisible = p.spriteVisible := by
  intro k
  induction k with
  | zero =>
    intro _
    exact ⟨hty, hbk, hbr, by simpa using ht, rfl⟩
  | succ n ih =>
    intro hk
    have hn : n < t := Nat.lt_of_succ_lt hk
    obtain ⟨h1, h2, h3, h4, h5⟩ := ih hn
    rw [Function.iterate_succ_apply']
    have htgt : (1 : ℚ) < ((t - n : ℕ) : ℚ) := by
      have hlt : 1 < t - n := by omega
      exact_mod_cast hlt
    rw [breakableTick_decrement _ _ h1 h2 h4 htgt]
    refine ⟨h1, h2, h3, ?_, h5⟩
    have harith : ((t - n : ℕ) : ℚ) - 1 = ((t - (n + 1) : ℕ) : ℚ) := by
      have h' : t - n = (t - (n + 1)) + 1 := by omega
      rw [h', Nat.cast_add, Nat.cast_one]
      ring
    simpa using harith

/-- Characterization of the respawn countdown across platform phases: while
fewer phases than the respawn timer value have elapsed, the platform stays
broken with the timer decreased accordingly, and its visibility is
untouched. -/
theorem breakable_broken_iterate (p : Platform) (r : ℕ)
    (hty : p.type = "breakable") (hbk : p.isBreaking = some false)
    (hbr : p.isBroken = some true) (hr : p.respawnTimer = some (r : ℚ)) :
    ∀ k : ℕ, k < r →
      (breakableTick^[k] p).type = "breakable" ∧
      (breakableTick^[k] p).isBreaking = some false ∧
      (breakableTick^[k] p).isBroken = some true ∧
      (breakableTick^[k] p).respawnTimer = some ((r - k : ℕ) : ℚ) ∧
      (breakableTick^[k] p).spriteVisible = p.spriteVisible := by
  intro k
  induction k with
  | zero =>
    intro _
    exact ⟨hty, hbk, hbr, by simpa using hr, rfl⟩
  | succ n ih =>
    intro hk
    have hn : n < r := Nat.lt_of_succ_lt hk
    obtain ⟨h1, h2, h3, h4, h5⟩ := ih hn
    rw [Function.iterate_succ_apply']
    have hrgt : (1 : ℚ) < ((r - n : ℕ) : ℚ) := by
      have hlt : 1 < r - n := by omega
      exact_mod_cast hlt
    rw [breakableTick_respawn_decrement _ _ h1 h2 h3 h4 hrgt]
    refine ⟨h1, h2, h3, ?_, h5⟩
    have harith : ((r - n : ℕ) : ℚ) - 1 = ((r - (n + 1) : ℕ) : ℚ) := by
      have h' : r - n = (r - (n + 1)) + 1 := by omega
      rw [h', Nat.cast_add, Nat.cast_one]
      ring
    simpa using harith

/-- Solidity of a breaking breakable platform whose countdown is still
positive. -/
theorem platformSolid_of_breaking_pos (p : Platform) (t : ℚ)
    (hty : p.type = "breakable") (hbr : p.isBroken = some false)
    (hbk : p.isBreaking = some true) (ht : p.breakingTimer = some t)
    (h0 : 0 < t) : platformSolid p = true := by
  simp [platformSolid, hty, hbr, hbk, ht, obGet, h0.not_le]

/-- A broken breakable platform is not solid. -/
theorem platformSolid_of_broken (p : Platform)
    (hty : p.type = "breakable") (hbr : p.isBroken = some true) :
    platformSolid p = false := by
  simp [platformSolid, hty, hbr, obGet]

/-- An intact breakable platform is solid. -/
theorem platformSolid_of_intact (p : Platform)
    (hty : p.type = "breakable") (hbr : p.isBroken = some false)
    (hbk : p.isBreaking = some false) : platformSolid p = true := by
  simp [platformSolid, hty, hbr, hbk, obGet]

/-- Field-level consequences of the flip iteration (countdown at 1). -/
theorem breakable_flip_fields (p : Platform)
    (h1 : p.type = "breakable") (h2 : p.isBreaking = some true)
    (h4 : p.breakingTimer = some 1) :
    (breakableTick p).type = "breakable" ∧
    (breakableTick p).isBroken = some true ∧
    (breakableTick p).isBreaking = some false ∧
    (breakableTick p).spriteVisible = false ∧
    (breakableTick p).respawnTimer = some ((300 : ℕ) : ℚ) ∧
    platformSolid (breakableTick p) = false := by
  have hfl := (breakableTick_flip p 1 h1 h2 h4 one_pos (le_refl 1)).1
  rw [hfl]
  refine ⟨h1, rfl, rfl, rfl, ?_, ?_⟩
  · show some BREAKABLE_PLATFORM_RESPAWN_DURATION = _
    norm_num [BREAKABLE_PLATFORM_RESPAWN_DURATION]
  · exact platformSolid_of_broken _ h1 rfl

/-- Field-level consequences of the respawn flip iteration (respawn timer
at 1). -/
theorem breakable_respawn_flip_fields (p : Platform)
    (h1 : p.type = "breakable") (h2 : p.isBreaking = some false)
    (h3 : p.isBroken = some true) (h4 : p.respawnTimer = some 1) :
    (breakableTick p).type = "breakable" ∧
    (breakableTick p).isBroken = some false ∧
    (breakableTick p).isBreaking = some false ∧
    (breakableTick p).spriteVisible = true ∧
    platformSolid (breakableTick p) = true := by
  have hfl := breakableTick_respawn_flip p 1 h1 h2 h3 h4 (le_refl 1)
  rw [hfl]
  refine ⟨h1, rfl, rfl, rfl, ?_⟩
  exact platformSolid_of_intact _ h1 rfl rfl

/-- C2: the breakable life cycle. (1) In the platform phase a breakable
platform at index `i` is advanced exactly by `breakableTick`, and the phase
iteration for index `i` touches no other platform, so across game ticks the
platform's state is the iterate of `breakableTick`. (2) On the phase
iteration on which the countdown runs out while the player stands on the
platform, the player's `standingOnPlatform` is cleared and `onGround` set
false in that same tick. (3) For a platform that starts intact, a landing
(`breakStart`, lines 600-602) begins the 30-tick break-delay countdown
during which the platform stays solid and visible; after exactly 30 phases
it is broken and invisible (non-solid); it stays broken and invisible for
the following 300-phase respawn countdown, and after exactly those 300
further phases it is intact — solid and visible — again. -/
theorem C2_breakable_lifecycle :
    (∀ (st : PhaseSt) (i : ℕ) (p : Platform),
      st.platforms.get? i = some p → p.type = "breakable" →
      (stepPlatformAt st i).platforms = st.platforms.set i (breakableTick p) ∧
      ∀ j, j ≠ i → (stepPlatformAt st i).platforms.get? j = st.platforms.get? j) ∧
    (∀ (st : PhaseSt) (i : ℕ) (p : Platform) (t : ℚ),
      st.platforms.get? i = some p → p.type = "breakable" →
      p.isBreaking = some true → p.breakingTimer = some t → 0 < t → t ≤ 1 →
      st.player.standingOnPlatform = some i →
      (stepPlatformAt st i).player.standingOnPlatform = none ∧
      (stepPlatformAt st i).player.onGround = false) ∧
    (∀ p : Platform, p.type = "breakable" → p.isBroken = some false →
      p.isBreaking = some false → p.spriteVisible = true →
      (∀ k : ℕ, k < 30 →
        platformSolid (breakableTick^[k] (breakStart p)) = true ∧
        (breakableTick^[k] (breakStart p)).spriteVisible = true) ∧
      ((breakableTick^[30] (breakStart p)).isBroken = some true ∧
       (breakableTick^[30] (breakStart p)).spriteVisible = false ∧
       platformSolid (breakableTick^[30] (breakStart p)) = false) ∧
      (∀ k : ℕ, 30 ≤ k → k < 330 →
        (breakableTick^[k] (breakStart p)).isBroken = some true ∧
        (breakableTick^[k] (breakStart p)).spriteVisible = false ∧
        platformSolid (breakableTick^[k] (breakStart p)) = false) ∧
      ((breakableTick^[330] (breakStart p)).isBroken = some false ∧
       (breakableTick^[330] (breakStart p)).isBreaking = some false ∧
       (breakableTick^[330] (breakStart p)).spriteVisible = true ∧
       platformSolid (breakableTick^[330] (breakStart p)) = true)) := by
  refine ⟨?_, ?_, ?_⟩
  · intro st i p hget hty
    obtain ⟨h1, -, h3⟩ := stepPlatformAt_breakable st i p hget hty
    exact ⟨h1, h3⟩
  · intro st i p t hget hty hbk ht h0 h1 hstand
    obtain ⟨-, hpl, -⟩ := stepPlatformAt_breakable st i p hget hty
    have hflag := (breakableTick_flip p t hty hbk ht h0 h1).2
    rw [hpl, if_pos ⟨hflag, hstand⟩]
    exact ⟨rfl, rfl⟩
  · intro p hty hbr hbk hvis
    set q := breakStart p with hq
    have hqty : q.type = "breakable" := hty
    have hqbk : q.isBreaking = some true := rfl
    have hqbr : q.isBroken = some false := hbr
    have hqvis : q.spriteVisible = true := hvis
    have hqt : q.breakingTimer = some ((30 : ℕ) : ℚ) := by
      show some BREAKABLE_PLATFORM_BREAK_DELAY = _
      norm_num [BREAKABLE_PLATFORM_BREAK_DELAY]
    have countdown := breakable_countdown_iterate q 30 hqty hqbk hqbr hqt
    obtain ⟨c1, c2, c3, c4, c5⟩ := countdown 29 (by norm_num)
    have c4' : (breakableTick^[29] q).breakingTimer = some 1 := by
      rw [c4]
      norm_num
    have h30eq : breakableTick^[30] q = breakableTick (breakableTick^[29] q) := by
      have h : (30 : ℕ) = 29 + 1 := by norm_num
      rw [h, Function.iterate_succ_apply']
    have hFlip := breakable_flip_fields (breakableTick^[29] q) c1 c2 c4'
    have hBty : (breakableTick^[30] q).type = "breakable" :=
      (congrArg Platform.type h30eq).trans hFlip.1
    have hBbr : (breakableTick^[30] q).isBroken = some true :=
      (congrArg Platform.isBroken h30eq).trans hFlip.2.1
    have hBbk : (breakableTick^[30] q).isBreaking = some false :=
      (congrArg Platform.isBreaking h30eq).trans hFlip.2.2.1
    have hBvis : (breakableTick^[30] q).spriteVisible = false :=
      (congrArg Platform.spriteVisible h30eq).trans hFlip.2.2.2.1
    have hBr : (breakableTick^[30] q).respawnTimer = some ((300 : ℕ) : ℚ) :=
      (congrArg Platform.respawnTimer h30eq).trans hFlip.2.2.2.2.1
    have hBsolid : platformSolid (breakableTick^[30] q) = false :=
      (congrArg platformSolid h30eq).trans hFlip.2.2.2.2.2
    have brokenPhase := breakable_broken_iterate (breakableTick^[30] q) 300
      hBty hBbk hBbr hBr
    refine ⟨?_, ⟨hBbr, hBvis, hBsolid⟩, ?_, ?_⟩
    · intro k hk
      obtain ⟨d1, d2, d3, d4, d5⟩ := countdown k hk
      have hpos : (0 : ℚ) < ((30 - k : ℕ) : ℚ) := by
        have h30k : 0 < 30 - k := by omega
        exact_mod_cast h30k
      exact ⟨platformSolid_of_breaking_pos _ _ d1 d3 d2 d4 hpos, d5.trans hqvis⟩
    · intro k hk30 hk330
      have hkeq : k = (k - 30) + 30 := by omega
      have hiter : breakableTick^[k] q = breakableTick^[k - 30] (breakableTick^[30] q) := by
        conv_lhs => rw [hkeq]
        rw [Function.iterate_add_apply]
      obtain ⟨e1, e2, e3, e4, e5⟩ := brokenPhase (k - 30) (by omega)
      refine ⟨(congrArg Platform.isBroken hiter).trans e3,
        ((congrArg Platform.spriteVisible hiter).trans e5).trans hBvis, ?_⟩
      exact (congrArg platformSolid hiter).trans (platformSolid_of_broken _ e1 e3)
    · obtain ⟨f1, f2, f3, f4, f5⟩ := brokenPhase 299 (by norm_num)
      have f4' : (breakableTick^[299] (breakableTick^[30] q)).respawnTimer = some 1 := by
        rw [f4]
        norm_num
      have h330 : breakableTick^[330] q =
          breakableTick (breakableTick^[299] (breakableTick^[30] q)) := by
        have h3a : (330 : ℕ) = 300 + 30 := by norm_num
        have h3b : (300 : ℕ) = 299 + 1 := by norm_num
        rw [h3a, Function.iterate_add_apply, h3b, Function.iterate_succ_apply']
      have hRFlip := breakable_respawn_flip_fields
        (breakableTick^[299] (breakableTick^[30] q)) f1 f2 f3 f4'
      exact ⟨(congrArg Platform.isBroken h330).trans hRFlip.2.1,
        (congrArg Platform.isBreaking h330).trans hRFlip.2.2.1,
        (congrArg Platform.spriteVisible h330).trans hRFlip.2.2.2.1,
        (congrArg platformSolid h330).trans hRFlip.2.2.2.2⟩

/-- Concrete breakable platform fixture for the C2 witness. -/
def c2P : Platform :=
  mkPlatformObject { x := 0, y := 100, width := 50, type := some "breakable" }

/-- Witness for C2 at a concrete intact breakable platform: still solid and
visible one phase before the delay elapses, broken and invisible after
exactly 30 phases. -/
theorem C2_breakable_lifecycle_witness :
    c2P.type = "breakable" ∧ c2P.isBroken = some false ∧
    c2P.isBreaking = some false ∧ c2P.spriteVisible = true ∧
    (platformSolid (breakableTick^[29] (breakStart c2P)) = true ∧
     (breakableTick^[29] (breakStart c2P)).spriteVisible = true) ∧
    ((breakableTick^[30] (breakStart c2P)).isBroken = some true ∧
     (breakableTick^[30] (breakStart c2P)).spriteVisible = false ∧
     platformSolid (breakableTick^[30] (breakStart c2P)) = false) :=
  ⟨by with_unfolding_all rfl, by with_unfolding_all rfl,
   by with_unfolding_all rfl, by with_unfolding_all rfl,
   (C2_breakable_lifecycle.2.2 c2P (by with_unfolding_all rfl)
     (by with_unfolding_all rfl) (by with_unfolding_all rfl)
     (by with_unfolding_all rfl)).1 29 (by norm_num),
   (C2_breakable_lifecycle.2.2 c2P (by with_unfolding_all rfl)
     (by with_unfolding_all rfl) (by with_unfolding_all rfl)
     (by with_unfolding_all rfl)).2.1⟩

/-! ### C4: oscillating platforms -/

/-- Interval arithmetic behind the clamp safety: if a segment of width `w`
does not overlap `[qx, qx + qw)` when placed at `x` nor at `c = x + 1/2`,
and both widths are at least the per-tick speed 1/2, then it does not
overlap at any intermediate position `b` either. -/
theorem clamp_no_overlap (x c b w qx qw : ℚ)
    (hw : 1/2 ≤ w) (hqw : 1/2 ≤ qw)
    (hbx : x ≤ b) (hbc : b ≤ c) (hcx : c = x + 1/2)
    (hx : qx + qw ≤ x ∨ qx ≥ x + w)
    (hc : qx + qw ≤ c ∨ qx ≥ c + w) :
    qx + qw ≤ b ∨ qx ≥ b + w := by
  rcases hx with hx | hx
  · exact Or.inl (by linarith)
  · rcases hc with hc | hc
    · exfalso
      linarith
    · exact Or.inr (by linarith)


/-- Behaviour and safety of the horizontal-oscillator move: a candidate that
would overlap another currently-solid platform reverses the direction and
leaves the position unchanged; otherwise the platform moves to the candidate
position clamped to `[initialX - range, initialX + range]`; the position
stays inside that corridor; and provided the mover did not overlap any other
solid platform before the move and every width is at least the per-tick
speed, it does not overlap one after the move. -/
theorem mobileStepX_spec (ps : List Platform) (i : ℕ) (p : Platform) (d r : ℚ)
    (hty : p.type = "mobile")
    (hdx : p.moveDirectionX = some d) (hd : d = 1 ∨ d = -1)
    (hrx : p.moveRangeX = some r)
    (hlo : p.initialX - r ≤ p.x) (hhi : p.x ≤ p.initialX + r)
    (hw : DEFAULT_PLATFORM_MOVE_SPEED ≤ p.width)
    (hws : ∀ jq ∈ ps.enum, jq.1 ≠ i → platformSolid jq.2 = true →
      DEFAULT_PLATFORM_MOVE_SPEED ≤ jq.2.width)
    (hsep : ∀ jq ∈ ps.enum, jq.1 ≠ i → platformSolid jq.2 = true →
      checkCollision (platformRect p) (platformRect jq.2) = false) :
    ((ps.enum.any fun jp =>
        decide (jp.1 ≠ i) && platformSolid jp.2 &&
        checkCollision ⟨p.x + DEFAULT_PLATFORM_MOVE_SPEED * d, p.y, p.width, p.height⟩
          (platformRect jp.2)) = true →
      (mobileStepX ps i p).x = p.x ∧
      (mobileStepX ps i p).moveDirectionX = some (d * (-1))) ∧
    ((ps.enum.any fun jp =>
        decide (jp.1 ≠ i) && platformSolid jp.2 &&
        checkCollision ⟨p.x + DEFAULT_PLATFORM_MOVE_SPEED * d, p.y, p.width, p.height⟩
          (platformRect jp.2)) = false →
      (mobileStepX ps i p).x =
        max (p.initialX - r) (min (p.x + DEFAULT_PLATFORM_MOVE_SPEED * d) (p.initialX + r))) ∧
    (p.initialX - r ≤ (mobileStepX ps i p).x ∧
     (mobileStepX ps i p).x ≤ p.initialX + r) ∧
    (∀ jq ∈ ps.enum, jq.1 ≠ i → platformSolid jq.2 = true →
      checkCollision (platformRect (mobileStepX ps i p)) (platformRect jq.2) = false) := by
  have hr0 : 0 ≤ r := by linarith
  have hspeed : DEFAULT_PLATFORM_MOVE_SPEED = 1/2 := by norm_num [DEFAULT_PLATFORM_MOVE_SPEED]
  have hstep : mobileStepX ps i p =
      (if (ps.enum.any fun jp =>
          decide (jp.1 ≠ i) && platformSolid jp.2 &&
          checkCollision ⟨p.x + DEFAULT_PLATFORM_MOVE_SPEED * d, p.y, p.width, p.height⟩
            (platformRect jp.2)) = true then
        { p with moveDirectionX := some (d * (-1)), currentSpeedX := p.x - p.x }
      else
        (let nextX :=
          if d = 1 ∧ p.x + DEFAULT_PLATFORM_MOVE_SPEED * d > p.initialX + r
          then p.initialX + r
          else if d = -1 ∧ p.x + DEFAULT_PLATFORM_MOVE_SPEED * d < p.initialX - r
          then p.initialX - r
          else p.x + DEFAULT_PLATFORM_MOVE_SPEED * d
        let dir' :=
          if d = 1 ∧ p.x + DEFAULT_PLATFORM_MOVE_SPEED * d > p.initialX + r
          then (-1 : ℚ)
          else if d = -1 ∧ p.x + DEFAULT_PLATFORM_MOVE_SPEED * d < p.initialX - r
          then (1 : ℚ)
          else d
        { p with x := nextX, moveDirectionX := some dir',
                 currentSpeedX := nextX - p.x })) := by
    simp only [mobileStepX, hty, if_true, hdx, hrx]
  by_cases hhit : (ps.enum.any fun jp =>
      decide (jp.1 ≠ i) && platformSolid jp.2 &&
      checkCollision ⟨p.x + DEFAULT_PLATFORM_MOVE_SPEED * d, p.y, p.width, p.height⟩
        (platformRect jp.2)) = true
  · have hx1 : (mobileStepX ps i p).x = p.x := by rw [hstep, if_pos hhit]
    have hdir : (mobileStepX ps i p).moveDirectionX = some (d * (-1)) := by
      rw [hstep, if_pos hhit]
    have hrect : platformRect (mobileStepX ps i p) = platformRect p := by
      rw [hstep, if_pos hhit]
      rfl
    refine ⟨fun _ => ⟨hx1, hdir⟩,
      fun hc => absurd hhit (by rw [hc]; exact Bool.false_ne_true), ?_, ?_⟩
    · rw [hx1]
      exact ⟨hlo, hhi⟩
    · intro jq hmem hne hsolid
      rw [hrect]
      exact hsep jq hmem hne hsolid
  · have hhit' : (ps.enum.any fun jp =>
        decide (jp.1 ≠ i) && platformSolid jp.2 &&
        checkCollision ⟨p.x + DEFAULT_PLATFORM_MOVE_SPEED * d, p.y, p.width, p.height⟩
          (platformRect jp.2)) = false := Bool.eq_false_iff.mpr hhit
    have hcand : ∀ jq ∈ ps.enum, jq.1 ≠ i → platformSolid jq.2 = true →
        checkCollision ⟨p.x + DEFAULT_PLATFORM_MOVE_SPEED * d, p.y, p.width, p.height⟩
          (platformRect jq.2) = false := by
      intro jq hmem hne hsolid
      have hall := List.any_eq_false.mp hhit' jq hmem
      simp only [Bool.and_eq_true, decide_eq_true_eq, not_and] at hall
      rcases hcc : checkCollision ⟨p.x + DEFAULT_PLATFORM_MOVE_SPEED * d, p.y, p.width,
          p.height⟩ (platformRect jq.2) with _ | _
      · rfl
      · exact absurd hcc (hall ⟨hne, hsolid⟩)
    have hxval : (mobileStepX ps i p).x =
        max (p.initialX - r) (min (p.x + DEFAULT_PLATFORM_MOVE_SPEED * d) (p.initialX + r)) := by
      rw [hstep, if_neg (by rw [hhit']; exact Bool.false_ne_true)]
      show (if d = 1 ∧ p.x + DEFAULT_PLATFORM_MOVE_SPEED * d > p.initialX + r
          then p.initialX + r
          else if d = -1 ∧ p.x + DEFAULT_PLATFORM_MOVE_SPEED * d < p.initialX - r
          then p.initialX - r
          else p.x + DEFAULT_PLATFORM_MOVE_SPEED * d) = _
      rcases hd with rfl | rfl
      · by_cases hcl : p.x + DEFAULT_PLATFORM_MOVE_SPEED * 1 > p.initialX + r
        · rw [if_pos ⟨rfl, hcl⟩, min_eq_right (le_of_lt hcl),
            max_eq_right (by linarith)]
        · push_neg at hcl
          rw [if_neg (fun hc => absurd hcl (not_le.mpr hc.2)),
            if_neg (fun hc => absurd hc.1 (by norm_num)),
            min_eq_left hcl, max_eq_right (by rw [hspeed]; linarith)]
      · by_cases hcl : p.x + DEFAULT_PLATFORM_MOVE_SPEED * (-1) < p.initialX - r
        · rw [if_neg (fun hc => absurd hc.1 (by norm_num)), if_pos ⟨rfl, hcl⟩,
            min_eq_left (by linarith), max_eq_left (by linarith)]
        · push_neg at hcl
          rw [if_neg (fun hc => absurd hc.1 (by norm_num)),
            if_neg (fun hc => absurd hc.2 (not_lt.mpr hcl)),
            min_eq_left (by rw [hspeed]; linarith), max_eq_right hcl]
    have hy1 : (mobileStepX ps i p).y = p.y := by
      rw [hstep, if_neg (by rw [hhit']; exact Bool.false_ne_true)]
    have hw1 : (mobileStepX ps i p).width = p.width := by
      rw [hstep, if_neg (by rw [hhit']; exact Bool.false_ne_true)]
    have hh1 : (mobileStepX ps i p).height = p.height := by
      rw [hstep, if_neg (by rw [hhit']; exact Bool.false_ne_true)]
    have hcorr : p.initialX - r ≤ (mobileStepX ps i p).x ∧
        (mobileStepX ps i p).x ≤ p.initialX + r := by
      rw [hxval]
      constructor
      · exact le_max_left _ _
      · rcases hd with rfl | rfl
        · exact max_le (by linarith) (min_le_right _ _)
        · exact max_le (by linarith) (min_le_right _ _)
    refine ⟨fun hc => absurd hc (by rw [hhit']; exact Bool.false_ne_true),
      fun _ => hxval, hcorr, ?_⟩
    intro jq hmem hne hsolid
    have hw2 : (1 : ℚ)/2 ≤ p.width := by
      rw [hspeed] at hw
      exact hw
    have hqw : (1 : ℚ)/2 ≤ jq.2.width := by
      have hqws := hws jq hmem hne hsolid
      rw [hspeed] at hqws
      exact hqws
    have h0 := (checkCollision_eq_false_iff _ _).mp (hsep jq hmem hne hsolid)
    have h1 := (checkCollision_eq_false_iff _ _).mp (hcand jq hmem hne hsolid)
    have hrect2 : platformRect (mobileStepX ps i p) =
        ⟨(mobileStepX ps i p).x, p.y, p.width, p.height⟩ := by
      rw [platformRect, hy1, hw1, hh1]
    rw [hrect2, checkCollision_eq_false_iff]
    simp only [platformRect] at h0 h1 ⊢
    set b := (mobileStepX ps i p).x with hb
    have hxcase : (jq.2.x + jq.2.width ≤ p.x ∨ jq.2.x ≥ p.x + p.width) →
        (jq.2.x + jq.2.width ≤ p.x + DEFAULT_PLATFORM_MOVE_SPEED * d ∨
         jq.2.x ≥ p.x + DEFAULT_PLATFORM_MOVE_SPEED * d + p.width) →
        (jq.2.x + jq.2.width ≤ b ∨ jq.2.x ≥ b + p.width) := by
      intro hx0 hx1
      rcases hd with rfl | rfl
      · have hxb : p.x ≤ b := by
          rw [hxval]
          exact le_max_of_le_right (le_min (by rw [hspeed]; linarith) hhi)
        have hbc : b ≤ p.x + DEFAULT_PLATFORM_MOVE_SPEED * 1 := by
          rw [hxval]
          exact max_le (by rw [hspeed]; linarith) (min_le_left _ _)
        exact clamp_no_overlap p.x (p.x + DEFAULT_PLATFORM_MOVE_SPEED * 1) b p.width
          jq.2.x jq.2.width hw2 hqw hxb hbc (by rw [hspeed]; ring) hx0 hx1
      · have hcb : p.x + DEFAULT_PLATFORM_MOVE_SPEED * (-1) ≤ b := by
          rw [hxval]
          exact le_max_of_le_right (le_min (le_refl _) (by rw [hspeed]; linarith))
        have hbx : b ≤ p.x := by
          rw [hxval]
          exact max_le hlo ((min_le_left _ _).trans (by rw [hspeed]; linarith))
        exact clamp_no_overlap (p.x + DEFAULT_PLATFORM_MOVE_SPEED * (-1)) p.x b p.width
          jq.2.x jq.2.width hw2 hqw hcb hbx (by rw [hspeed]; ring) hx1 hx0
    rcases h0 with h0 | h0 | h0 | h0
    · rcases h1 with h1 | h1 | h1 | h1
      · exact (hxcase (Or.inl h0) (Or.inl h1)).elim Or.inl (fun h => Or.inr (Or.inl h))
      · exact (hxcase (Or.inl h0) (Or.inr h1)).elim Or.inl (fun h => Or.inr (Or.inl h))
      · exact Or.inr (Or.inr (Or.inl h1))
      · exact Or.inr (Or.inr (Or.inr h1))
    · rcases h1 with h1 | h1 | h1 | h1
      · exact (hxcase (Or.inr h0) (Or.inl h1)).elim Or.inl (fun h => Or.inr (Or.inl h))
      · exact (hxcase (Or.inr h0) (Or.inr h1)).elim Or.inl (fun h => Or.inr (Or.inl h))
      · exact Or.inr (Or.inr (Or.inl h1))
      · exact Or.inr (Or.inr (Or.inr h1))
    · exact Or.inr (Or.inr (Or.inl h0))
    · exact Or.inr (Or.inr (Or.inr h0))

/-- Behaviour and safety of the vertical-oscillator move, the `y`-axis
analogue of `mobileStepX_spec`. -/
theorem mobileStepY_spec (ps : List Platform) (i : ℕ) (p : Platform) (d r : ℚ)
    (hty : p.type = "vertical_mobile")
    (hdy : p.moveDirectionY = some d) (hd : d = 1 ∨ d = -1)
    (hry : p.moveRangeY = some r)
    (hlo : p.initialY - r ≤ p.y) (hhi : p.y ≤ p.initialY + r)
    (hh : DEFAULT_PLATFORM_MOVE_SPEED ≤ p.height)
    (hhs : ∀ jq ∈ ps.enum, jq.1 ≠ i → platformSolid jq.2 = true →
      DEFAULT_PLATFORM_MOVE_SPEED ≤ jq.2.height)
    (hsep : ∀ jq ∈ ps.enum, jq.1 ≠ i → platformSolid jq.2 = true →
      checkCollision (platformRect p) (platformRect jq.2) = false) :
    ((ps.enum.any fun jp =>
        decide (jp.1 ≠ i) && platformSolid jp.2 &&
        checkCollision ⟨p.x, p.y + DEFAULT_PLATFORM_MOVE_SPEED * d, p.width, p.height⟩
          (platformRect jp.2)) = true →
      (mobileStepY ps i p).y = p.y ∧
      (mobileStepY ps i p).moveDirectionY = some (d * (-1))) ∧
    ((ps.enum.any fun jp =>
        decide (jp.1 ≠ i) && platformSolid jp.2 &&
        checkCollision ⟨p.x, p.y + DEFAULT_PLATFORM_MOVE_SPEED * d, p.width, p.height⟩
          (platformRect jp.2)) = false →
      (mobileStepY ps i p).y =
        max (p.initialY - r) (min (p.y + DEFAULT_PLATFORM_MOVE_SPEED * d) (p.initialY + r))) ∧
    (p.initialY - r ≤ (mobileStepY ps i p).y ∧
     (mobileStepY ps i p).y ≤ p.initialY + r) ∧
    (∀ jq ∈ ps.enum, jq.1 ≠ i → platformSolid jq.2 = true →
      checkCollision (platformRect (mobileStepY ps i p)) (platformRect jq.2) = false) := by
  have hr0 : 0 ≤ r := by linarith
  have hspeed : DEFAULT_PLATFORM_MOVE_SPEED = 1/2 := by norm_num [DEFAULT_PLATFORM_MOVE_SPEED]
  have hstep : mobileStepY ps i p =
      (if (ps.enum.any fun jp =>
          decide (jp.1 ≠ i) && platformSolid jp.2 &&
          checkCollision ⟨p.x, p.y + DEFAULT_PLATFORM_MOVE_SPEED * d, p.width, p.height⟩
            (platformRect jp.2)) = true then
        { p with moveDirectionY := some (d * (-1)), currentSpeedY := p.y - p.y }
      else
        (let nextY :=
          if d = 1 ∧ p.y + DEFAULT_PLATFORM_MOVE_SPEED * d > p.initialY + r
          then p.initialY + r
          else if d = -1 ∧ p.y + DEFAULT_PLATFORM_MOVE_SPEED * d < p.initialY - r
          then p.initialY - r
          else p.y + DEFAULT_PLATFORM_MOVE_SPEED * d
        let dir' :=
          if d = 1 ∧ p.y + DEFAULT_PLATFORM_MOVE_SPEED * d > p.initialY + r
          then (-1 : ℚ)
          else if d = -1 ∧ p.y + DEFAULT_PLATFORM_MOVE_SPEED * d < p.initialY - r
          then (1 : ℚ)
          else d
        { p with y := nextY, moveDirectionY := some dir',
                 currentSpeedY := nextY - p.y })) := by
    simp only [mobileStepY, hty, if_true, hdy, hry]
  by_cases hhit : (ps.enum.any fun jp =>
      decide (jp.1 ≠ i) && platformSolid jp.2 &&
      checkCollision ⟨p.x, p.y + DEFAULT_PLATFORM_MOVE_SPEED * d, p.width, p.height⟩
        (platformRect jp.2)) = true
  · have hy1 : (mobileStepY ps i p).y = p.y := by rw [hstep, if_pos hhit]
    have hdir : (mobileStepY ps i p).moveDirectionY = some (d * (-1)) := by
      rw [hstep, if_pos hhit]
    have hrect : platformRect (mobileStepY ps i p) = platformRect p := by
      rw [hstep, if_pos hhit]
      rfl
    refine ⟨fun _ => ⟨hy1, hdir⟩,
      fun hc => absurd hhit (by rw [hc]; exact Bool.false_ne_true), ?_, ?_⟩
    · rw [hy1]
      exact ⟨hlo, hhi⟩
    · intro jq hmem hne hsolid
      rw [hrect]
      exact hsep jq hmem hne hsolid
  · have hhit' : (ps.enum.any fun jp =>
        decide (jp.1 ≠ i) && platformSolid jp.2 &&
        checkCollision ⟨p.x, p.y + DEFAULT_PLATFORM_MOVE_SPEED * d, p.width, p.height⟩
          (platformRect jp.2)) = false := Bool.eq_false_iff.mpr hhit
    have hcand : ∀ jq ∈ ps.enum, jq.1 ≠ i → platformSolid jq.2 = true →
        checkCollision ⟨p.x, p.y + DEFAULT_PLATFORM_MOVE_SPEED * d, p.width, p.height⟩
          (platformRect jq.2) = false := by
      intro jq hmem hne hsolid
      have hall := List.any_eq_false.mp hhit' jq hmem
      simp only [Bool.and_eq_true, decide_eq_true_eq, not_and] at hall
      rcases hcc : checkCollision ⟨p.x, p.y + DEFAULT_PLATFORM_MOVE_SPEED * d, p.width,
          p.height⟩ (platformRect jq.2) with _ | _
      · rfl
      · exact absurd hcc (hall ⟨hne, hsolid⟩)
    have hyval : (mobileStepY ps i p).y =
        max (p.initialY - r) (min (p.y + DEFAULT_PLATFORM_MOVE_SPEED * d) (p.initialY + r)) := by
      rw [hstep, if_neg (by rw [hhit']; exact Bool.false_ne_true)]
      show (if d = 1 ∧ p.y + DEFAULT_PLATFORM_MOVE_SPEED * d > p.initialY + r
          then p.initialY + r
          else if d = -1 ∧ p.y + DEFAULT_PLATFORM_MOVE_SPEED * d < p.initialY - r
          then p.initialY - r
          else p.y + DEFAULT_PLATFORM_MOVE_SPEED * d) = _
      rcases hd with rfl | rfl
      · by_cases hcl : p.y + DEFAULT_PLATFORM_MOVE_SPEED * 1 > p.initialY + r
        · rw [if_pos ⟨rfl, hcl⟩, min_eq_right (le_of_lt hcl),
            max_eq_right (by linarith)]
        · push_neg at hcl
          rw [if_neg (fun hc => absurd hcl (not_le.mpr hc.2)),
            if_neg (fun hc => absurd hc.1 (by norm_num)),
            min_eq_left hcl, max_eq_right (by rw [hspeed]; linarith)]
      · by_cases hcl : p.y + DEFAULT_PLATFORM_MOVE_SPEED * (-1) < p.initialY - r
        · rw [if_neg (fun hc => absurd hc.1 (by norm_num)), if_pos ⟨rfl, hcl⟩,
            min_eq_left (by linarith), max_eq_left (by linarith)]
        · push_neg at hcl
          rw [if_neg (fun hc => absurd hc.1 (by norm_num)),
            if_neg (fun hc => absurd hc.2 (not_lt.mpr hcl)),
            min_eq_left (by rw [hspeed]; linarith), max_eq_right hcl]
    have hx1 : (mobileStepY ps i p).x = p.x := by
      rw [hstep, if_neg (by rw [hhit']; exact Bool.false_ne_true)]
    have hw1 : (mobileStepY ps i p).width = p.width := by
      rw [hstep, if_neg (by rw [hhit']; exact Bool.false_ne_true)]
    have hh1 : (mobileStepY ps i p).height = p.height := by
      rw [hstep, if_neg (by rw [hhit']; exact Bool.false_ne_true)]
    have hcorr : p.initialY - r ≤ (mobileStepY ps i p).y ∧
        (mobileStepY ps i p).y ≤ p.initialY + r := by
      rw [hyval]
      constructor
      · exact le_max_left _ _
      · rcases hd with rfl | rfl
        · exact max_le (by linarith) (min_le_right _ _)
        · exact max_le (by linarith) (min_le_right _ _)
    refine ⟨fun hc => absurd hc (by rw [hhit']; exact Bool.false_ne_true),
      fun _ => hyval, hcorr, ?_⟩
    intro jq hmem hne hsolid
    have hh2 : (1 : ℚ)/2 ≤ p.height := by
      rw [hspeed] at hh
      exact hh
    have hqh : (1 : ℚ)/2 ≤ jq.2.height := by
      have hqhs := hhs jq hmem hne hsolid
      rw [hspeed] at hqhs
      exact hqhs
    have h0 := (checkCollision_eq_false_iff _ _).mp (hsep jq hmem hne hsolid)
    have h1 := (checkCollision_eq_false_iff _ _).mp (hcand jq hmem hne hsolid)
    have hrect2 : platformRect (mobileStepY ps i p) =
        ⟨p.x, (mobileStepY ps i p).y, p.width, p.height⟩ := by
      rw [platformRect, hx1, hw1, hh1]
    rw [hrect2, checkCollision_eq_false_iff]
    simp only [platformRect] at h0 h1 ⊢
    set b := (mobileStepY ps i p).y with hb
    have hycase : (jq.2.y + jq.2.height ≤ p.y ∨ jq.2.y ≥ p.y + p.height) →
        (jq.2.y + jq.2.height ≤ p.y + DEFAULT_PLATFORM_MOVE_SPEED * d ∨
         jq.2.y ≥ p.y + DEFAULT_PLATFORM_MOVE_SPEED * d + p.height) →
        (jq.2.y + jq.2.height ≤ b ∨ jq.2.y ≥ b + p.height) := by
      intro hy0 hy1'
      rcases hd with rfl | rfl
      · have hxb : p.y ≤ b := by
          rw [hyval]
          exact le_max_of_le_right (le_min (by rw [hspeed]; linarith) hhi)
        have hbc : b ≤ p.y + DEFAULT_PLATFORM_MOVE_SPEED * 1 := by
          rw [hyval]
          exact max_le (by rw [hspeed]; linarith) (min_le_left _ _)
        exact clamp_no_overlap p.y (p.y + DEFAULT_PLATFORM_MOVE_SPEED * 1) b p.height
          jq.2.y jq.2.height hh2 hqh hxb hbc (by rw [hspeed]; ring) hy0 hy1'
      · have hcb : p.y + DEFAULT_PLATFORM_MOVE_SPEED * (-1) ≤ b := by
          rw [hyval]
          exact le_max_of_le_right (le_min (le_refl _) (by rw [hspeed]; linarith))
        have hbx : b ≤ p.y := by
          rw [hyval]
          exact max_le hlo ((min_le_left _ _).trans (by rw [hspeed]; linarith))
        exact clamp_no_overlap (p.y + DEFAULT_PLATFORM_MOVE_SPEED * (-1)) p.y b p.height
          jq.2.y jq.2.height hh2 hqh hcb hbx (by rw [hspeed]; ring) hy1' hy0
    rcases h0 with h0 | h0 | h0 | h0
    · exact Or.inl h0
    · exact Or.inr (Or.inl h0)
    · rcases h1 with h1 | h1 | h1 | h1
      · exact Or.inl h1
      · exact Or.inr (Or.inl h1)
      · exact (hycase (Or.inl h0) (Or.inl h1)).elim (fun h => Or.inr (Or.inr (Or.inl h)))
          (fun h => Or.inr (Or.inr (Or.inr h)))
      · exact (hycase (Or.inl h0) (Or.inr h1)).elim (fun h => Or.inr (Or.inr (Or.inl h)))
          (fun h => Or.inr (Or.inr (Or.inr h)))
    · rcases h1 with h1 | h1 | h1 | h1
      · exact Or.inl h1
      · exact Or.inr (Or.inl h1)
      · exact (hycase (Or.inr h0) (Or.inl h1)).elim (fun h => Or.inr (Or.inr (Or.inl h)))
          (fun h => Or.inr (Or.inr (Or.inr h)))
      · exact (hycase (Or.inr h0) (Or.inr h1)).elim (fun h => Or.inr (Or.inr (Or.inl h)))
          (fun h => Or.inr (Or.inr (Or.inr h)))

/-- Mobile platform fixture for the C4 counterexample, constructed exactly
on top of a standard platform. -/
def c4Mob : Platform := mkPlatformObject { x := 0, y := 0, width := 10, type := some "mobile" }

/-- Solid standard platform fixture for the C4 counterexample, congruent
with `c4Mob`. -/
def c4Std : Platform := mkPlatformObject { x := 0, y := 0, width := 10, type := some "standard" }

/-- Player fixture for the C4 counterexample phase state. -/
def c4Player : Player :=
  { x := 0, y := -16, vx := 0, vy := 0, isJumping := false, isCrouching := false,
    onGround := false, width := 8, height := 16, standingOnPlatform := none }

/-- Phase-state fixture for the C4 counterexample. -/
def c4St : PhaseSt := { platforms := [c4Mob, c4Std], player := c4Player }

/-- Counterexample to C4 as stated: after a full platform phase the
oscillating platform still ends the tick overlapping the solid standard
platform — its candidate move collides, so it only reverses direction and
keeps its position, which already overlapped. The no-tunneling invariant is
therefore not unconditional. -/
theorem C4_counterexample :
    platformSolid c4Std = true ∧
    ((platformPhase c4St).platforms.get? 0).isSome = true ∧
    checkCollision
      (platformRect (((platformPhase c4St).platforms.get? 0).getD c4Mob))
      (platformRect (((platformPhase c4St).platforms.get? 1).getD c4Std)) = true ∧
    platformSolid (((platformPhase c4St).platforms.get? 1).getD c4Std) = true := by
  refine ⟨?_, ?_, ?_, ?_⟩ <;> with_unfolding_all rfl

/-- C4 amended: for every oscillating platform and every tick, a candidate
move that would overlap another currently-solid platform's rectangle
reverses the mover's direction and leaves its position unchanged for that
tick, and otherwise the position becomes the candidate clamped to
`[initial - range, initial + range]`; the position always stays in that
corridor; and the mover ends its move not overlapping any other solid
platform provided it did not overlap one at the start of its move and every
platform's width (horizontal mover) or height (vertical mover) is at least
the per-tick move speed. -/
theorem C4_oscillator_amended :
    (∀ (ps : List Platform) (i : ℕ) (p : Platform) (d r : ℚ),
      p.type = "mobile" → p.moveDirectionX = some d → d = 1 ∨ d = -1 →
      p.moveRangeX = some r → p.initialX - r ≤ p.x → p.x ≤ p.initialX + r →
      DEFAULT_PLATFORM_MOVE_SPEED ≤ p.width →
      (∀ jq ∈ ps.enum, jq.1 ≠ i → platformSolid jq.2 = true →
        DEFAULT_PLATFORM_MOVE_SPEED ≤ jq.2.width) →
      (∀ jq ∈ ps.enum, jq.1 ≠ i → platformSolid jq.2 = true →
        checkCollision (platformRect p) (platformRect jq.2) = false) →
      ((ps.enum.any fun jp =>
          decide (jp.1 ≠ i) && platformSolid jp.2 &&
          checkCollision ⟨p.x + DEFAULT_PLATFORM_MOVE_SPEED * d, p.y, p.width, p.height⟩
            (platformRect jp.2)) = true →
        (mobileStepX ps i p).x = p.x ∧
        (mobileStepX ps i p).moveDirectionX = some (d * (-1))) ∧
      ((ps.enum.any fun jp =>
          decide (jp.1 ≠ i) && platformSolid jp.2 &&
          checkCollision ⟨p.x + DEFAULT_PLATFORM_MOVE_SPEED * d, p.y, p.width, p.height⟩
            (platformRect jp.2)) = false →
        (mobileStepX ps i p).x =
          max (p.initialX - r)
            (min (p.x + DEFAULT_PLATFORM_MOVE_SPEED * d) (p.initialX + r))) ∧
      (p.initialX - r ≤ (mobileStepX ps i p).x ∧
       (mobileStepX ps i p).x ≤ p.initialX + r) ∧
      (∀ jq ∈ ps.enum, jq.1 ≠ i → platformSolid jq.2 = true →
        checkCollision (platformRect (mobileStepX ps i p)) (platformRect jq.2) = false)) ∧
    (∀ (ps : List Platform) (i : ℕ) (p : Platform) (d r : ℚ),
      p.type = "vertical_mobile" → p.moveDirectionY = some d → d = 1 ∨ d = -1 →
      p.moveRangeY = some r → p.initialY - r ≤ p.y → p.y ≤ p.initialY + r →
      DEFAULT_PLATFORM_MOVE_SPEED ≤ p.height →
      (∀ jq ∈ ps.enum, jq.1 ≠ i → platformSolid jq.2 = true →
        DEFAULT_PLATFORM_MOVE_SPEED ≤ jq.2.height) →
      (∀ jq ∈ ps.enum, jq.1 ≠ i → platformSolid jq.2 = true →
        checkCollision (platformRect p) (platformRect jq.2) = false) →
      ((ps.enum.any fun jp =>
          decide (jp.1 ≠ i) && platformSolid jp.2 &&
          checkCollision ⟨p.x, p.y + DEFAULT_PLATFORM_MOVE_SPEED * d, p.width, p.height⟩
            (platformRect jp.2)) = true →
        (mobileStepY ps i p).y = p.y ∧
        (mobileStepY ps i p).moveDirectionY = some (d * (-1))) ∧
      ((ps.enum.any fun jp =>
          decide (jp.1 ≠ i) && platformSolid jp.2 &&
          checkCollision ⟨p.x, p.y + DEFAULT_PLATFORM_MOVE_SPEED * d, p.width, p.height⟩
            (platformRect jp.2)) = false →
        (mobileStepY ps i p).y =
          max (p.initialY - r)
            (min (p.y + DEFAULT_PLATFORM_MOVE_SPEED * d) (p.initialY + r))) ∧
      (p.initialY - r ≤ (mobileStepY ps i p).y ∧
       (mobileStepY ps i p).y ≤ p.initialY + r) ∧
      (∀ jq ∈ ps.enum, jq.1 ≠ i → platformSolid jq.2 = true →
        checkCollision (platformRect (mobileStepY ps i p)) (platformRect jq.2) = false)) :=
  ⟨fun ps i p d r hty hdx hd hrx hlo hhi hw hws hsep =>
    mobileStepX_spec ps i p d r hty hdx hd hrx hlo hhi hw hws hsep,
   fun ps i p d r hty hdy hd hry hlo hhi hh hhs hsep =>
    mobileStepY_spec ps i p d r hty hdy hd hry hlo hhi hh hhs hsep⟩

/-- Mobile platform fixture for the C4 witness. -/
def c4wMob : Platform := mkPlatformObject { x := 0, y := 0, width := 10, type := some "mobile" }

/-- Separated solid platform fixture for the C4 witness. -/
def c4wStd : Platform := mkPlatformObject { x := 30, y := 0, width := 10, type := some "standard" }

/-- Witness for the amended C4 at a concrete separated pair: the mover
advances to the candidate (clamp formula) position. -/
theorem C4_oscillator_amended_witness :
    c4wMob.type = "mobile" ∧
    (mobileStepX [c4wMob, c4wStd] 0 c4wMob).x =
      max (c4wMob.initialX - 28)
        (min (c4wMob.x + DEFAULT_PLATFORM_MOVE_SPEED * 1) (c4wMob.initialX + 28)) :=
  ⟨by with_unfolding_all rfl,
    (C4_oscillator_amended.1 [c4wMob, c4wStd] 0 c4wMob 1 28
      (by with_unfolding_all rfl) (by with_unfolding_all rfl) (Or.inl rfl)
      (by with_unfolding_all rfl)
      (of_decide_eq_true (by with_unfolding_all rfl))
      (of_decide_eq_true (by with_unfolding_all rfl))
      (of_decide_eq_true (by with_unfolding_all rfl))
      (of_decide_eq_true (by with_unfolding_all rfl))
      (of_decide_eq_true (by with_unfolding_all rfl))).2.1
      (by with_unfolding_all rfl)⟩

/-- One step of the last-platform fold of lines 380-390: keep the running
argmax of `initialX + width`, replacing it only on a strictly greater reach. -/
def lastFoldStep (acc : Option (ℕ × ℚ)) (jp : ℕ × Platform) : Option (ℕ × ℚ) :=
  match acc with
  | none => some (jp.1, jp.2.initialX + jp.2.width)
  | some im =>
    if jp.2.initialX + jp.2.width > im.2
    then some (jp.1, jp.2.initialX + jp.2.width)
    else some im

/-- The last-platform fold together with its running maximum reach. -/
def lastPlatformAux (ps : List Platform) : Option (ℕ × ℚ) :=
  ps.enum.foldl lastFoldStep none

theorem lastPlatformIndex_eq_aux (ps : List Platform) :
    lastPlatformIndex ps = (lastPlatformAux ps).map Prod.fst := rfl

theorem lastPlatformAux_concat (ps : List Platform) (p : Platform) :
    lastPlatformAux (ps ++ [p]) = lastFoldStep (lastPlatformAux ps) (ps.length, p) := by
  unfold lastPlatformAux
  rw [List.enum_append, List.foldl_append]
  rfl

theorem lastPlatformAux_spec (ps : List Platform) :
    (lastPlatformAux ps = none → ps = []) ∧
    (∀ i m, lastPlatformAux ps = some (i, m) →
      ∃ p, ps.get? i = some p ∧ m = p.initialX + p.width ∧
        (∀ j q, ps.get? j = some q → q.initialX + q.width ≤ m) ∧
        (∀ j q, j < i → ps.get? j = some q → q.initialX + q.width < m)) := by
  induction ps using List.reverseRecOn with
  | nil =>
    refine ⟨fun _ => rfl, fun i m h => ?_⟩
    exact absurd h (by simp [lastPlatformAux])
  | append_singleton ps p ih =>
    have hcat := lastPlatformAux_concat ps p
    constructor
    · intro h
      rw [hcat] at h
      cases hA : lastPlatformAux ps with
      | none => rw [hA] at h; exact Option.noConfusion h
      | some im =>
        rw [hA] at h
        revert h
        simp only [lastFoldStep]
        split <;> simp
    · intro i m h
      rw [hcat] at h
      cases hA : lastPlatformAux ps with
      | none =>
        have hnil : ps = [] := ih.1 hA
        rw [hA] at h
        have h' : (some (ps.length, p.initialX + p.width) : Option (ℕ × ℚ)) = some (i, m) := h
        have hpair := Option.some.inj h'
        rw [Prod.mk.injEq] at hpair
        obtain ⟨hi, hm⟩ := hpair
        subst hnil
        refine ⟨p, ?_, hm.symm, ?_, ?_⟩
        · rw [← hi]; rfl
        · intro j q hq
          match j with
          | 0 =>
            have hqp : q = p := by
              have h0 : (([] ++ [p] : List Platform)).get? 0 = some p := rfl
              rw [h0] at hq
              exact (Option.some.inj hq).symm
            rw [hqp, ← hm]
          | j + 1 => exact absurd hq (by simp)
        · intro j q hj hq
          rw [← hi] at hj
          exact absurd hj (Nat.not_lt_zero j)
      | some im =>
        obtain ⟨i₀, m₀⟩ := im
        obtain ⟨p₀, hp₀, hm₀, hle, hlt⟩ := ih.2 i₀ m₀ hA
        have hi₀lt : i₀ < ps.length := by
          rcases List.get?_eq_some.mp hp₀ with ⟨hlt', _⟩
          exact hlt'
        rw [hA] at h
        have h' :
            (if p.initialX + p.width > m₀
             then some (ps.length, p.initialX + p.width)
             else some (i₀, m₀) : Option (ℕ × ℚ)) = some (i, m) := h
        by_cases hc : p.initialX + p.width > m₀
        · rw [if_pos hc] at h'
          have hpair := Option.some.inj h'
          rw [Prod.mk.injEq] at hpair
          obtain ⟨hi, hm⟩ := hpair
          refine ⟨p, ?_, hm.symm, ?_, ?_⟩
          · rw [← hi]; exact List.get?_concat_length ps p
          · intro j q hq
            rcases Nat.lt_trichotomy j ps.length with hj | hj | hj
            · rw [List.get?_append hj] at hq
              rw [← hm]
              exact (hle j q hq).trans (le_of_lt hc)
            · subst hj
              rw [List.get?_concat_length] at hq
              rw [(Option.some.inj hq).symm, ← hm]
            · have hnone : (ps ++ [p]).get? j = none :=
                List.get?_eq_none.mpr (by simp; omega)
              rw [hnone] at hq
              exact absurd hq (by simp)
          · intro j q hj hq
            have hj' : j < ps.length := by rw [← hi] at hj; exact hj
            rw [List.get?_append hj'] at hq
            rw [← hm]
            exact lt_of_le_of_lt (hle j q hq) hc
        · rw [if_neg hc] at h'
          have hpair := Option.some.inj h'
          rw [Prod.mk.injEq] at hpair
          obtain ⟨hi, hm⟩ := hpair
          refine ⟨p₀, ?_, ?_, ?_, ?_⟩
          · rw [← hi]; rw [List.get?_append hi₀lt]; exact hp₀
          · rw [← hm]; exact hm₀
          · intro j q hq
            rcases Nat.lt_trichotomy j ps.length with hj | hj | hj
            · rw [List.get?_append hj] at hq
              rw [← hm]
              exact hle j q hq
            · subst hj
              rw [List.get?_concat_length] at hq
              rw [(Option.some.inj hq).symm, ← hm]
              exact not_lt.mp hc
            · have hnone : (ps ++ [p]).get? j = none :=
                List.get?_eq_none.mpr (by simp; omega)
              rw [hnone] at hq
              exact absurd hq (by simp)
          · intro j q hj hq
            have hji₀ : j < i₀ := by rw [← hi] at hj; exact hj
            have hj' : j < ps.length := lt_trans hji₀ hi₀lt
            rw [List.get?_append hj'] at hq
            rw [← hm]
            exact hlt j q hji₀ hq

theorem completionCheck_fst (s : GameState) :
    (completionCheck s).1 = (completionCond s && !s.newLevelRequested) := by
  unfold completionCheck
  cases h : (completionCond s && !s.newLevelRequested) <;> simp [h]

theorem completionCheck_snd (s : GameState) :
    (completionCheck s).2 = (completionCond s || s.newLevelRequested) := by
  unfold completionCheck
  cases hc : completionCond s <;> cases hl : s.newLevelRequested <;> simp [hc, hl]

theorem preCompletion_keeps_latch (s : GameState) (keys : Keys) :
    (preCompletion s keys).1.newLevelRequested = s.newLevelRequested := rfl

theorem tick_latch (s : GameState) (keys : Keys) :
    (tick s keys).1.newLevelRequested =
      (completionCond (preCompletion s keys).1 || s.newLevelRequested) := by
  have h : (tick s keys).1.newLevelRequested =
      (completionCheck (preCompletion s keys).1).2 := rfl
  rw [h, completionCheck_snd, preCompletion_keeps_latch]

theorem tick_completed (s : GameState) (keys : Keys) :
    (tick s keys).2.completed =
      (completionCond (preCompletion s keys).1 && !s.newLevelRequested) := by
  have h : (tick s keys).2.completed =
      (completionCheck (preCompletion s keys).1).1 := rfl
  rw [h, completionCheck_fst, preCompletion_keeps_latch]

theorem trace_latch (s0 : GameState) (ks : ℕ → Keys) (t : ℕ) :
    (trace s0 ks t).newLevelRequested =
      (s0.newLevelRequested || (List.range t).any fun u => condAt s0 ks u) := by
  induction t with
  | zero => simp [trace]
  | succ t ih =>
    have hstep : trace s0 ks (t + 1) = (tick (trace s0 ks t) (ks t)).1 := rfl
    rw [hstep, tick_latch, ih]
    have hcond : completionCond (preCompletion (trace s0 ks t) (ks t)).1 =
        condAt s0 ks t := rfl
    have hr : List.range (t + 1) = List.range t ++ [t] := List.range_succ t
    rw [hcond, hr, List.any_append]
    cases h1 : condAt s0 ks t <;>
      cases h2 : s0.newLevelRequested <;>
        cases h3 : (List.range t).any fun u => condAt s0 ks u <;>
          simp [h1, h2, h3]

theorem emittedAt_eq (s0 : GameState) (ks : ℕ → Keys) (t : ℕ) :
    emittedAt s0 ks t =
      (condAt s0 ks t &&
        !(s0.newLevelRequested || (List.range t).any fun u => condAt s0 ks u)) := by
  unfold emittedAt
  rw [tick_completed, trace_latch]
  rfl

/-- **C1**: the one-shot completion latch makes `LevelCompleted` fire exactly
on the first tick of a level instance (the latch starts clear) on which the
end-of-tick completion condition — player `onGround` with `standingOn` equal
to the precomputed last platform — holds, and on no other tick; and the
precomputed last platform is the platform with the greatest
`initialX + width`, ties broken by first-seen order. -/
theorem C1_completion_once :
    (∀ (s0 : GameState) (ks : ℕ → Keys) (t : ℕ),
      s0.newLevelRequested = false →
      (emittedAt s0 ks t = true ↔
        (condAt s0 ks t = true ∧ ∀ u, u < t → condAt s0 ks u = false))) ∧
    (∀ (ps : List Platform) (i : ℕ),
      lastPlatformIndex ps = some i →
      ∃ p, ps.get? i = some p ∧
        (∀ j q, ps.get? j = some q →
          q.initialX + q.width ≤ p.initialX + p.width) ∧
        (∀ j q, j < i → ps.get? j = some q →
          q.initialX + q.width < p.initialX + p.width)) := by
  constructor
  · intro s0 ks t h0
    rw [emittedAt_eq, h0, Bool.false_or]
    constructor
    · intro h
      rw [Bool.and_eq_true] at h
      obtain ⟨hc, hn⟩ := h
      refine ⟨hc, fun u hu => ?_⟩
      have hany : ((List.range t).any fun u => condAt s0 ks u) = false := by
        cases hx : (List.range t).any fun u => condAt s0 ks u
        · rfl
        · rw [hx] at hn; exact absurd hn (by simp)
      have hnone := List.any_eq_false.mp hany u (List.mem_range.mpr hu)
      cases hcu : condAt s0 ks u
      · rfl
      · exact absurd hcu hnone
    · rintro ⟨hc, hall⟩
      have hany : ((List.range t).any fun u => condAt s0 ks u) = false := by
        apply List.any_eq_false.mpr
        intro u hu
        rw [hall u (List.mem_range.mp hu)]
        simp
      rw [hc, hany]
      rfl
  · intro ps i h
    rw [lastPlatformIndex_eq_aux] at h
    rcases Option.map_eq_some'.mp h with ⟨im, him, hfst⟩
    obtain ⟨i₀, m₀⟩ := im
    obtain ⟨p, hp, hm, hle, hlt⟩ := (lastPlatformAux_spec ps).2 i₀ m₀ him
    subst hfst
    refine ⟨p, hp, ?_, ?_⟩
    · intro j q hq
      rw [← hm]
      exact hle j q hq
    · intro j q hj hq
      rw [← hm]
      exact hlt j q hj hq

/-- Platform data fixture for the C1 witness. -/
def c1Pd : PlatformData := { x := 0, y := 0, width := 50, type := some "standard" }

/-- Platform fixture for the C1 witness. -/
def c1Plat : Platform := mkPlatformObject c1Pd

/-- Player fixture for the C1 witness, at rest on the (single, hence last)
platform; the post-physics state of every tick keeps it standing there. -/
def c1Player : Player :=
  { x := 10, y := -16, vx := 0, vy := 0, isJumping := false, isCrouching := false,
    onGround := true, width := 8, height := 16, standingOnPlatform := some 0 }

/-- Level-state fixture for the C1 witness, with the latch clear. -/
def c1State : GameState :=
  { parsed := [c1Pd], platforms := [c1Plat], player := c1Player,
    lastPlatform := some 0, newLevelRequested := false }

/-- Key stream fixture for the C1 witness: no keys held on any tick. -/
def c1Keys : ℕ → Keys := fun _ => []

/-- Witness for C1 at a concrete run: the player rests on the last platform
from tick 0 on, the signal fires on tick 0 and not on tick 1. -/
theorem C1_completion_once_witness :
    c1State.newLevelRequested = false ∧
    emittedAt c1State c1Keys 0 = true ∧
    emittedAt c1State c1Keys 1 = false := by
  refine ⟨rfl, ?_, ?_⟩
  · exact (C1_completion_once.1 c1State c1Keys 0 rfl).mpr
      ⟨by with_unfolding_all rfl, fun u hu => absurd hu (Nat.not_lt_zero u)⟩
  · cases h : emittedAt c1State c1Keys 1
    · rfl
    · have h2 := (C1_completion_once.1 c1State c1Keys 1 rfl).mp h
      have h3 := h2.2 0 Nat.zero_lt_one
      have h4 : condAt c1State c1Keys 0 = true := by with_unfolding_all rfl
      rw [h3] at h4
      exact absurd h4 (by simp)

/-! ### C5: end-of-tick player invariants -/

theorem foldl_preserves {α β : Type} (P : α → Prop) (f : α → β → α)
    (hf : ∀ a b, P a → P (f a b)) :
    ∀ (l : List β) (a : α), P a → P (l.foldl f a) := by
  intro l
  induction l with
  | nil => exact fun a h => h
  | cons b l ih => exact fun a h => ih (f a b) (hf a b h)

theorem foldl_proj {α β γ : Type} (f : α → β → α) (g : α → γ)
    (hf : ∀ a b, g (f a b) = g a) :
    ∀ (l : List β) (a : α), g (l.foldl f a) = g a := by
  intro l
  induction l with
  | nil => exact fun a => rfl
  | cons b l ih => intro a; rw [List.foldl_cons, ih (f a b), hf]

theorem clearGroundStep_ground (ps : List Platform) (pl : Player) :
    (clearGroundStep ps pl).onGround = false := by
  unfold clearGroundStep
  dsimp only
  repeat' split
  all_goals rfl

theorem horizontalPass_keeps (coll : List (ℕ × Platform)) (prevY : ℚ) (pl : Player) :
    (horizontalPass coll prevY pl).onGround = pl.onGround ∧
    (horizontalPass coll prevY pl).standingOnPlatform = pl.standingOnPlatform := by
  constructor
  · exact foldl_proj _ Player.onGround
      (fun a b => by
        dsimp only
        by_cases h1 : a.vx > 0 <;> by_cases h2 : a.vx < 0 <;>
          split <;> simp [h1, h2]) coll pl
  · exact foldl_proj _ Player.standingOnPlatform
      (fun a b => by
        dsimp only
        by_cases h1 : a.vx > 0 <;> by_cases h2 : a.vx < 0 <;>
          split <;> simp [h1, h2]) coll pl

theorem mobileStepX_breakFields (ps : List Platform) (i : ℕ) (p : Platform) :
    (mobileStepX ps i p).type = p.type ∧
    (mobileStepX ps i p).isBreaking = p.isBreaking ∧
    (mobileStepX ps i p).isBroken = p.isBroken ∧
    (mobileStepX ps i p).breakingTimer = p.breakingTimer := by
  simp only [mobileStepX]
  repeat' split
  all_goals simp

theorem mobileStepY_breakFields (ps : List Platform) (i : ℕ) (p : Platform) :
    (mobileStepY ps i p).type = p.type ∧
    (mobileStepY ps i p).isBreaking = p.isBreaking ∧
    (mobileStepY ps i p).isBroken = p.isBroken ∧
    (mobileStepY ps i p).breakingTimer = p.breakingTimer := by
  simp only [mobileStepY]
  repeat' split
  all_goals simp

theorem timedStep_breakFields (p : Platform) :
    (timedStep p).type = p.type ∧
    (timedStep p).isBreaking = p.isBreaking ∧
    (timedStep p).isBroken = p.isBroken ∧
    (timedStep p).breakingTimer = p.breakingTimer := by
  simp only [timedStep]
  repeat' split
  all_goals simp

theorem noMidCollapse_congr (q' q : Platform)
    (ht : q'.type = q.type) (h1 : q'.isBreaking = q.isBreaking)
    (h2 : q'.isBroken = q.isBroken) (h3 : q'.breakingTimer = q.breakingTimer) :
    noMidCollapse q' = noMidCollapse q := by
  simp [noMidCollapse, ht, h1, h2, h3]

theorem noMidCollapse_breakStart (p : Platform) :
    noMidCollapse (breakStart p) = true := by
  norm_num [noMidCollapse, breakStart, obGet, BREAKABLE_PLATFORM_BREAK_DELAY]

theorem noMidCollapse_breakableStep (p : Platform) (h : noMidCollapse p = true) :
    noMidCollapse (breakableStep p).1 = true := by
  simp only [breakableStep]
  repeat' split
  all_goals first
    | exact h
    | simp_all [noMidCollapse, obGet]

theorem stepPlatformAt_platforms_eq (st : PhaseSt) (i : ℕ) (p0 : Platform)
    (hget : st.platforms.get? i = some p0) :
    (stepPlatformAt st i).platforms =
      st.platforms.set i
        (breakableStep (timedStep (mobileStepY st.platforms i
          (mobileStepX st.platforms i
            { p0 with currentSpeedX := 0, currentSpeedY := 0 })))).1 := by
  unfold stepPlatformAt
  rw [hget]

theorem stepPlatformAt_NMC (st : PhaseSt) (i : ℕ)
    (h : st.platforms.all noMidCollapse = true) :
    (stepPlatformAt st i).platforms.all noMidCollapse = true := by
  cases hget : st.platforms.get? i with
  | none =>
    have : stepPlatformAt st i = st := by unfold stepPlatformAt; rw [hget]
    rw [this]; exact h
  | some p0 =>
    rw [stepPlatformAt_platforms_eq st i p0 hget]
    have hp0 : noMidCollapse p0 = true := List.all_eq_true.mp h p0 (List.get?_mem hget)
    have hp1 : noMidCollapse { p0 with currentSpeedX := 0, currentSpeedY := 0 } = true := by
      simpa [noMidCollapse] using hp0
    have hp2 := mobileStepX_breakFields st.platforms i
      { p0 with currentSpeedX := 0, currentSpeedY := 0 }
    have hp2' : noMidCollapse (mobileStepX st.platforms i
        { p0 with currentSpeedX := 0, currentSpeedY := 0 }) = true := by
      rw [noMidCollapse_congr _ _ hp2.1 hp2.2.1 hp2.2.2.1 hp2.2.2.2]
      exact hp1
    have hp3 := mobileStepY_breakFields st.platforms i
      (mobileStepX st.platforms i { p0 with currentSpeedX := 0, currentSpeedY := 0 })
    have hp3' : noMidCollapse (mobileStepY st.platforms i
        (mobileStepX st.platforms i
          { p0 with currentSpeedX := 0, currentSpeedY := 0 })) = true := by
      rw [noMidCollapse_congr _ _ hp3.1 hp3.2.1 hp3.2.2.1 hp3.2.2.2]
      exact hp2'
    have hp4 := timedStep_breakFields (mobileStepY st.platforms i
      (mobileStepX st.platforms i { p0 with currentSpeedX := 0, currentSpeedY := 0 }))
    have hp4' : noMidCollapse (timedStep (mobileStepY st.platforms i
        (mobileStepX st.platforms i
          { p0 with currentSpeedX := 0, currentSpeedY := 0 }))) = true := by
      rw [noMidCollapse_congr _ _ hp4.1 hp4.2.1 hp4.2.2.1 hp4.2.2.2]
      exact hp3'
    have hp5 := noMidCollapse_breakableStep _ hp4'
    apply List.all_eq_true.mpr
    intro x hx
    rcases List.mem_or_eq_of_mem_set hx with hmem | heq
    · exact List.all_eq_true.mp h x hmem
    · rw [heq]; exact hp5

theorem platformPhase_NMC (st : PhaseSt)
    (h : st.platforms.all noMidCollapse = true) :
    (platformPhase st).platforms.all noMidCollapse = true := by
  unfold platformPhase
  exact foldl_preserves (fun st' => st'.platforms.all noMidCollapse = true)
    stepPlatformAt (fun a b ha => stepPlatformAt_NMC a b ha)
    (List.range st.platforms.length) st h

theorem collidable_mem (ps : List Platform) (jq : ℕ × Platform)
    (h : jq ∈ collidable ps) :
    ps.get? jq.1 = some jq.2 ∧ platformSolid jq.2 = true := by
  unfold collidable at h
  rw [List.mem_filter] at h
  obtain ⟨hmem, hsolid⟩ := h
  obtain ⟨j, q⟩ := jq
  exact ⟨List.mk_mem_enum_iff_get?.mp hmem, hsolid⟩

theorem platformSolid_breakStart (q : Platform) (hty : q.type = "breakable")
    (hnb : obGet q.isBroken = false) : platformSolid (breakStart q) = true := by
  norm_num [platformSolid, breakStart, hty, obGet, BREAKABLE_PLATFORM_BREAK_DELAY]
  refine ⟨?_, Or.inl (by decide)⟩
  simpa [obGet] using hnb

theorem platformSolid_of_ok_NMC (p : Platform)
    (hok : ¬((p.type = "timed" ∧ ¬ obGet p.isVisible = true) ∨
             (p.type = "breakable" ∧ obGet p.isBroken = true)))
    (h : noMidCollapse p = true) : platformSolid p = true := by
  have hnot := not_or.mp hok
  by_cases hbr : p.type = "breakable"
  · have hnb : obGet p.isBroken = false := by
      cases h' : obGet p.isBroken
      · rfl
      · exact absurd ⟨hbr, h'⟩ hnot.2
    have hty1 : (p.type == "breakable") = true := by rw [hbr]; rfl
    have hty2 : (p.type == "timed") = false := by rw [hbr]; rfl
    cases hbk : obGet p.isBreaking
    · simp [platformSolid, hty1, hty2, hnb, hbk]
    · have hM : (match p.breakingTimer with
          | some t => decide (t ≤ 0) | none => false) = false := by
        simpa [noMidCollapse, hty1, hnb, hbk] using h
      simp [platformSolid, hty1, hty2, hnb, hbk, hM]
  · have hty1 : (p.type == "breakable") = false := by
      cases hb : p.type == "breakable"
      · rfl
      · exact absurd (eq_of_beq hb) hbr
    by_cases hti : p.type = "timed"
    · have hvis : obGet p.isVisible = true := by
        cases hv : obGet p.isVisible
        · exact absurd ⟨hti, by rw [hv]; exact Bool.false_ne_true⟩ hnot.1
        · rfl
      have hty2 : (p.type == "timed") = true := by rw [hti]; rfl
      simp [platformSolid, hty1, hty2, hvis]
    · have hty2 : (p.type == "timed") = false := by
        cases hb : p.type == "timed"
        · rfl
        · exact absurd (eq_of_beq hb) hti
      simp [platformSolid, hty1, hty2]

theorem verticalCollideOne_inv (ps : List Platform) (pl : Player) (prevY : ℚ)
    (j : ℕ) (q : Platform)
    (hq : ∃ p', ps.get? j = some p' ∧ platformSolid p' = true)
    (h2 : ps.all noMidCollapse = true)
    (h3 : pl.onGround = true → standingSolid ps pl = true) :
    (∀ k, (∃ p', ps.get? k = some p' ∧ platformSolid p' = true) →
      ∃ p', (verticalCollideOne ps pl prevY j q).1.get? k = some p' ∧
        platformSolid p' = true) ∧
    (verticalCollideOne ps pl prevY j q).1.all noMidCollapse = true ∧
    ((verticalCollideOne ps pl prevY j q).2.onGround = true →
      standingSolid (verticalCollideOne ps pl prevY j q).1
        (verticalCollideOne ps pl prevY j q).2 = true) := by
  simp only [verticalCollideOne]
  split
  · split
    · split
      · split
        · rename_i hbr
          obtain ⟨p', hp', hs'⟩ := hq
          have hjlen : j < ps.length := by
            rcases List.get?_eq_some.mp hp' with ⟨hl, _⟩
            exact hl
          have hnb : obGet q.isBroken = false := by
            cases hx : obGet q.isBroken
            · rfl
            · exact absurd hx hbr.2.1
          have hsetj : (ps.set j (breakStart q)).get? j = some (breakStart q) :=
            List.get?_set_eq_of_lt (breakStart q) hjlen
          have hsolidBS : platformSolid (breakStart q) = true :=
            platformSolid_breakStart q hbr.1 hnb
          refine ⟨?_, ?_, fun _ => ?_⟩
          · intro k hk
            by_cases hkj : k = j
            · subst hkj
              exact ⟨breakStart q, hsetj, hsolidBS⟩
            · obtain ⟨r, hr, hrs⟩ := hk
              refine ⟨r, ?_, hrs⟩
              rw [List.get?_set_ne (breakStart q) ps (fun hh => hkj hh.symm)]
              exact hr
          · apply List.all_eq_true.mpr
            intro x hx
            rcases List.mem_or_eq_of_mem_set hx with hmem | heq
            · exact List.all_eq_true.mp h2 x hmem
            · rw [heq]; exact noMidCollapse_breakStart q
          · have hsetj' : (ps.set j (breakStart q))[j]? = some (breakStart q) := by
              rw [← List.get?_eq_getElem?]
              exact hsetj
            simp [standingSolid, hsetj', hsolidBS]
        · refine ⟨fun k hk => hk, h2, fun _ => ?_⟩
          obtain ⟨p', hp', hs'⟩ := hq
          have hp'' : ps[j]? = some p' := by
            rw [← List.get?_eq_getElem?]
            exact hp'
          simp [standingSolid, hp'', hs']
      · exact ⟨fun k hk => hk, h2, fun hg => h3 hg⟩
    · split
      · split
        · exact ⟨fun k hk => hk, h2, fun hg => h3 hg⟩
        · exact ⟨fun k hk => hk, h2, fun hg => h3 hg⟩
      · exact ⟨fun k hk => hk, h2, fun hg => h3 hg⟩
  · exact ⟨fun k hk => hk, h2, fun hg => h3 hg⟩

theorem verticalPass_inv (prevY : ℚ) (coll : List (ℕ × Platform)) :
    ∀ (ps : List Platform) (pl : Player),
      (∀ jq ∈ coll, ∃ p', ps.get? jq.1 = some p' ∧ platformSolid p' = true) →
      ps.all noMidCollapse = true →
      (pl.onGround = true → standingSolid ps pl = true) →
      (verticalPass coll prevY ps pl).1.all noMidCollapse = true ∧
      ((verticalPass coll prevY ps pl).2.onGround = true →
        standingSolid (verticalPass coll prevY ps pl).1
          (verticalPass coll prevY ps pl).2 = true) := by
  induction coll with
  | nil => exact fun ps pl _ h2 h3 => ⟨h2, h3⟩
  | cons jp rest ih =>
    intro ps pl h1 h2 h3
    have hcons : verticalPass (jp :: rest) prevY ps pl =
        verticalPass rest prevY (verticalCollideOne ps pl prevY jp.1 jp.2).1
          (verticalCollideOne ps pl prevY jp.1 jp.2).2 := rfl
    rw [hcons]
    obtain ⟨hs1, hs2, hs3⟩ := verticalCollideOne_inv ps pl prevY jp.1 jp.2
      (h1 jp (List.mem_cons_self jp rest)) h2 h3
    exact ih _ _
      (fun kq hk => hs1 kq.1 (h1 kq (List.mem_cons_of_mem jp hk)))
      hs2 hs3

theorem standingReconcile_inv (ps : List Platform) (pl : Player)
    (h2 : ps.all noMidCollapse = true)
    (h3 : pl.onGround = true → standingSolid ps pl = true) :
    (standingReconcile ps pl).onGround = true →
      standingSolid ps (standingReconcile ps pl) = true := by
  simp only [standingReconcile]
  split
  · rename_i hguard
    split
    · rename_i p hbind
      split
      · rename_i hstill
        intro _
        obtain ⟨i, hi⟩ := Option.isSome_iff_exists.mp hguard.2
        have hget : ps.get? i = some p := by
          rw [hi] at hbind
          exact hbind
        have hNMC : noMidCollapse p = true :=
          List.all_eq_true.mp h2 p (List.get?_mem hget)
        have hsolid : platformSolid p = true :=
          platformSolid_of_ok_NMC p hstill.1 hNMC
        have hget' : ps[i]? = some p := by
          rw [← List.get?_eq_getElem?]
          exact hget
        simp [standingSolid, hi, hget', hsolid]
      · intro hg
        exact absurd hg hguard.1
    · intro hg
      exact absurd hg hguard.1
  · exact h3

theorem pipeline_inv (ps : List Platform) (pl0 : Player) (prevY : ℚ)
    (hNMC : ps.all noMidCollapse = true) :
    (verticalPass (collidable ps) prevY ps
        (horizontalPass (collidable ps) prevY (clearGroundStep ps pl0))).1.all
      noMidCollapse = true ∧
    ((standingReconcile
        (verticalPass (collidable ps) prevY ps
          (horizontalPass (collidable ps) prevY (clearGroundStep ps pl0))).1
        (verticalPass (collidable ps) prevY ps
          (horizontalPass (collidable ps) prevY (clearGroundStep ps pl0))).2).onGround =
        true →
      standingSolid
        (verticalPass (collidable ps) prevY ps
          (horizontalPass (collidable ps) prevY (clearGroundStep ps pl0))).1
        (standingReconcile
          (verticalPass (collidable ps) prevY ps
            (horizontalPass (collidable ps) prevY (clearGroundStep ps pl0))).1
          (verticalPass (collidable ps) prevY ps
            (horizontalPass (collidable ps) prevY (clearGroundStep ps pl0))).2) = true) := by
  have hg1 : (horizontalPass (collidable ps) prevY (clearGroundStep ps pl0)).onGround =
      false := by
    rw [(horizontalPass_keeps (collidable ps) prevY (clearGroundStep ps pl0)).1]
    exact clearGroundStep_ground ps pl0
  have h1 : ∀ jq ∈ collidable ps,
      ∃ p', ps.get? jq.1 = some p' ∧ platformSolid p' = true :=
    fun jq hmem => ⟨jq.2, (collidable_mem ps jq hmem).1, (collidable_mem ps jq hmem).2⟩
  have h3 : (horizontalPass (collidable ps) prevY (clearGroundStep ps pl0)).onGround =
      true →
      standingSolid ps (horizontalPass (collidable ps) prevY (clearGroundStep ps pl0)) =
        true := by
    intro hg
    rw [hg1] at hg
    exact absurd hg Bool.false_ne_true
  obtain ⟨hv2, hv3⟩ := verticalPass_inv prevY (collidable ps) ps
    (horizontalPass (collidable ps) prevY (clearGroundStep ps pl0)) h1 hNMC h3
  exact ⟨hv2, standingReconcile_inv _ _ hv2 hv3⟩

theorem physicsPhase_inv (s : GameState) (keys : Keys)
    (h : s.platforms.all noMidCollapse = true) :
    (physicsPhase s keys).platforms.all noMidCollapse = true ∧
    ((physicsPhase s keys).player.onGround = true →
      standingSolid (physicsPhase s keys).platforms (physicsPhase s keys).player =
        true) := by
  have hph : (platformPhase ⟨s.platforms, s.player⟩).platforms.all noMidCollapse = true :=
    platformPhase_NMC ⟨s.platforms, s.player⟩ h
  exact pipeline_inv (platformPhase ⟨s.platforms, s.player⟩).platforms
    (integrateStep (gravityStep (jumpStep keys (horizontalInput keys
      (crouchStep (platformPhase ⟨s.platforms, s.player⟩).platforms keys
        (platformCarry (platformPhase ⟨s.platforms, s.player⟩).platforms
          (platformPhase ⟨s.platforms, s.player⟩).player)))))).1
    (integrateStep (gravityStep (jumpStep keys (horizontalInput keys
      (crouchStep (platformPhase ⟨s.platforms, s.player⟩).platforms keys
        (platformCarry (platformPhase ⟨s.platforms, s.player⟩).platforms
          (platformPhase ⟨s.platforms, s.player⟩).player)))))).2.2
    hph

/-- Timed platform fixture for the C5 counterexample: one tick away from
turning invisible. -/
def c5Plat : Platform :=
  { mkPlatformObject { x := 0, y := 100, width := 50, type := some "timed" } with
    timer := some 1 }

/-- Crouched player fixture for the C5 counterexample, standing on the timed
platform. -/
def c5Player : Player :=
  { x := 10, y := 92, vx := 0, vy := 0, isJumping := false, isCrouching := true,
    onGround := true, width := 8, height := 8, standingOnPlatform := some 0 }

/-- Level-state fixture for the C5 counterexample. -/
def c5State : GameState :=
  { parsed := [{ x := 0, y := 100, width := 50, type := some "timed" }],
    platforms := [c5Plat], player := c5Player,
    lastPlatform := some 0, newLevelRequested := true }

/-- Counterexample to C5 as stated: the start state satisfies both claimed
invariants, but when the timed platform under the crouched player expires
during the tick, the tick ends with `isCrouching = true` while
`onGround = false` — the second invariant `isCrouching ⇒ onGround` does not
hold at end of tick. -/
theorem C5_counterexample :
    c5Player.isCrouching = true ∧ c5Player.onGround = true ∧
    standingSolid c5State.platforms c5Player = true ∧
    (tick c5State ["KeyS"]).1.player.isCrouching = true ∧
    (tick c5State ["KeyS"]).1.player.onGround = false := by
  refine ⟨rfl, rfl, ?_, ?_, ?_⟩ <;> with_unfolding_all rfl

/-- **C5** amended: at the end of every simulation tick whose start state has
no platform in the transient mid-collapse configuration, the first claimed
invariant holds — `onGround = true` implies `standingOnPlatform` references a
currently solid platform. (The second claimed invariant,
`isCrouching ⇒ onGround`, fails and is dropped: the support under a crouched
player can stop being solid during the tick.) -/
theorem C5_invariant_amended (s : GameState) (keys : Keys)
    (h : s.platforms.all noMidCollapse = true)
    (hg : (tick s keys).1.player.onGround = true) :
    standingSolid (tick s keys).1.platforms (tick s keys).1.player = true := by
  obtain ⟨hNMC, hstand⟩ := physicsPhase_inv s keys h
  have hpl : (tick s keys).1.player =
      (deathCheck (physicsPhase s keys).parsed (physicsPhase s keys).platforms
        (physicsPhase s keys).player).1 := rfl
  have hps : (tick s keys).1.platforms = (physicsPhase s keys).platforms := rfl
  rw [hpl] at hg
  rw [hpl, hps]
  simp only [deathCheck] at hg ⊢
  split at hg
  · simp at hg
  · rename_i hnd
    rw [if_neg hnd]
    exact hstand hg

/-- Platform-state fixture for the C5 witness. -/
def c5wState : GameState :=
  { parsed := [{ x := 0, y := 0, width := 50, type := some "standard" }],
    platforms := [mkPlatformObject { x := 0, y := 0, width := 50, type := some "standard" }],
    player := { x := 10, y := -16, vx := 0, vy := 0, isJumping := false,
                isCrouching := false, onGround := true, width := 8, height := 16,
                standingOnPlatform := some 0 },
    lastPlatform := some 0, newLevelRequested := true }

/-- Witness for the amended C5 at a concrete standing state. -/
theorem C5_invariant_amended_witness :
    c5wState.platforms.all noMidCollapse = true ∧
    (tick c5wState []).1.player.onGround = true ∧
    standingSolid (tick c5wState []).1.platforms (tick c5wState []).1.player = true :=
  ⟨by with_unfolding_all rfl, by with_unfolding_all rfl,
    C5_invariant_amended c5wState []
      (by with_unfolding_all rfl) (by with_unfolding_all rfl)⟩
